import Mathlib

/-!
Verification development for the AtomicStream x402 example client
(`src/index.ts`).  The client negotiates paid access to a websocket
stream, classifies inbound JSON messages into a closed set of event
variants, summarizes transaction events, and renews its session token
either over HTTP or in-band.

The embedding is shallow: JSON values are an inductive type, the
runtime type guards become Boolean functions over it, and the
`ws.on('message')` / `ws.on('open')` callbacks become pure functions
from a configuration, the outcomes of the external network calls, and
the client state to a new state plus a list of observable actions
(log lines, outbound websocket messages, HTTP requests, sleeps).
External services (the platform URL parser, `fetch`, the x402 payment
library) are modelled as inputs: their results are parameters of the
functions that consume them.
-/

namespace AtomicStream

/-- JSON values, as produced by `JSON.parse`.  Numbers are modelled as
integers: `JSON.parse` never yields `NaN`/`Infinity`, and no claim
depends on fractional values, so `num` stands for the finite numbers
(`typeof x === 'number' && Number.isFinite(x)` holds of every `num`). -/
inductive Json where
  | null : Json
  | bool (b : Bool) : Json
  | num (n : Int) : Json
  | str (s : String) : Json
  | arr (items : List Json) : Json
  | obj (fields : List (String × Json)) : Json

/-- Property lookup on a JSON object field list (objects from
`JSON.parse` have unique keys).  A missing key is `undefined`. -/
def getField (fs : List (String × Json)) (k : String) : Option Json :=
  List.lookup k fs

/-- The fields of an object, `[]` for any other value. -/
def Json.objFields : Json → List (String × Json)
  | .obj fs => fs
  | _ => []

/-- `typeof value.k === 'string'` for an object with fields `fs`. -/
def fieldIsStr (fs : List (String × Json)) (k : String) : Bool :=
  match getField fs k with
  | some (.str _) => true
  | _ => false

/-- `typeof value.k === 'number' && Number.isFinite(value.k)`: every
modelled number is finite (see `Json.num`). -/
def fieldIsNum (fs : List (String × Json)) (k : String) : Bool :=
  match getField fs k with
  | some (.num _) => true
  | _ => false

/-- `value.k === s` for a string literal `s`. -/
def fieldEqStr (fs : List (String × Json)) (k : String) (s : String) : Bool :=
  match getField fs k with
  | some (.str t) => t == s
  | _ => false

/-- `Array.isArray(value.k)`. -/
def fieldIsArr (fs : List (String × Json)) (k : String) : Bool :=
  match getField fs k with
  | some (.arr _) => true
  | _ => false

/-- `value.k` when it is a record (`isRecord`: object, not null, not array). -/
def fieldObj (fs : List (String × Json)) (k : String) : Option (List (String × Json)) :=
  match getField fs k with
  | some (.obj gs) => some gs
  | _ => none

/-- `value.k` as a string, with `""` as the (guard-protected) default. -/
def getStrField (fs : List (String × Json)) (k : String) : String :=
  match getField fs k with
  | some (.str s) => s
  | _ => ""

/-- `value.k` as a number, with `0` as the (guard-protected) default. -/
def getNumField (fs : List (String × Json)) (k : String) : Int :=
  match getField fs k with
  | some (.num n) => n
  | _ => 0

/-!
The runtime type guards of `index.ts` (lines 289-436).  Their TypeScript
argument type is `unknown`, which includes `undefined` — the result of
`safeJsonParse` on non-JSON bytes — so the Lean versions take
`Option Json`, `none` standing for `undefined`.
-/

/-- `isRecord` (line 289): a non-null non-array object. -/
def isRecord : Option Json → Bool
  | some (.obj _) => true
  | _ => false

/-- `isWsStatusEvent` (line 347): `type === 'status'` and a string `now`. -/
def isWsStatusEvent (v : Option Json) : Bool :=
  match v with
  | some (.obj fs) => fieldEqStr fs "type" "status" && fieldIsStr fs "now"
  | _ => false

/-- `isWsTransactionEvent` (line 352): `type === 'transaction'` and a
string `signature`. -/
def isWsTransactionEvent (v : Option Json) : Bool :=
  match v with
  | some (.obj fs) => fieldEqStr fs "type" "transaction" && fieldIsStr fs "signature"
  | _ => false

/-- `isWsAccountEvent` (line 357): `type === 'account'` and a string
`pubkey`. -/
def isWsAccountEvent (v : Option Json) : Bool :=
  match v with
  | some (.obj fs) => fieldEqStr fs "type" "account" && fieldIsStr fs "pubkey"
  | _ => false

/-- `isWsSlotEvent` (line 362): `type === 'slot'` and a numeric `slot`. -/
def isWsSlotEvent (v : Option Json) : Bool :=
  match v with
  | some (.obj fs) => fieldEqStr fs "type" "slot" && fieldIsNum fs "slot"
  | _ => false

/-- `isWsTickerEvent` (line 367): `type === 'ticker'` and a string
`baseMint`. -/
def isWsTickerEvent (v : Option Json) : Bool :=
  match v with
  | some (.obj fs) => fieldEqStr fs "type" "ticker" && fieldIsStr fs "baseMint"
  | _ => false

/-- `isWsLeaderboardEvent` (line 372): `type === 'leaderboard'` and an
array `items`. -/
def isWsLeaderboardEvent (v : Option Json) : Bool :=
  match v with
  | some (.obj fs) => fieldEqStr fs "type" "leaderboard" && fieldIsArr fs "items"
  | _ => false

/-- `isEnhancedTransactionEvent` (line 377): `'nativeTransfers' in value`.
At runtime this is a key-presence check on the decoded object. -/
def isEnhancedTransactionEvent (v : Option Json) : Bool :=
  match v with
  | some (.obj fs) => (getField fs "nativeTransfers").isSome
  | _ => false

/-- The fixed lifecycle operation set of `isWsX402Event` (line 384). -/
def x402Ops : List String :=
  ["hello", "renewal_reminder", "payment_required", "renewed", "error"]

/-- `isWsX402Event` (line 381): a record with a string `op` in the fixed
set. -/
def isWsX402Event (v : Option Json) : Bool :=
  match v with
  | some (.obj fs) =>
    match getField fs "op" with
    | some (.str op) => x402Ops.contains op
    | _ => false
  | _ => false

/-- `isRenewResponse` (line 387): string `token`, string `expiresAt`,
numeric `sliceSeconds`. -/
def isRenewResponse (v : Json) : Bool :=
  match v with
  | .obj fs => fieldIsStr fs "token" && fieldIsStr fs "expiresAt" && fieldIsNum fs "sliceSeconds"
  | _ => false

/-- `isWs402StreamSchema` (line 400), the shape check on the schema
response body. -/
def isWs402StreamSchema (v : Json) : Bool :=
  match v with
  | .obj fs =>
    fieldEqStr fs "protocol" "ws402" &&
    fieldEqStr fs "version" "1" &&
    fieldIsStr fs "websocketEndpoint" &&
    (match fieldObj fs "pricing", fieldObj fs "paymentDetails" with
     | some pricing, some details =>
       fieldIsNum pricing "pricePerSecond" &&
       fieldIsStr pricing "currency" &&
       fieldIsNum pricing "estimatedDuration" &&
       fieldEqStr details "scheme" "exact" &&
       fieldIsStr details "network" &&
       fieldIsStr details "asset" &&
       fieldIsStr details "payTo" &&
       fieldIsStr details "maxAmountRequired" &&
       fieldIsNum details "maxTimeoutSeconds"
     | _, _ => false) &&
    (match fieldObj fs "stream" with
     | some stream => fieldIsStr stream "id" && fieldIsStr stream "title" && fieldIsStr stream "description"
     | none => false)
  | _ => false

/-- `isPaymentRequired` (line 433): a record whose `accepts` is a
non-empty array. -/
def isPaymentRequired (v : Json) : Bool :=
  match v with
  | .obj fs =>
    match getField fs "accepts" with
    | some (.arr items) => items.length > 0
    | _ => false
  | _ => false

/-- The closed variant set of the classifier. -/
inductive EventTag where
  | status | transaction | account | slot | ticker | leaderboard | lifecycle | unrecognized
deriving DecidableEq, Repr

/-- The classification chain of the `ws.on('message')` callback
(lines 639-696): the guards are evaluated in this fixed order and the
first structural match wins; a payload matching none (including `none`,
i.e. non-JSON bytes) is unrecognized. -/
def classify (decoded : Option Json) : EventTag :=
  if isWsStatusEvent decoded then .status
  else if isWsTransactionEvent decoded then .transaction
  else if isWsAccountEvent decoded then .account
  else if isWsSlotEvent decoded then .slot
  else if isWsTickerEvent decoded then .ticker
  else if isWsLeaderboardEvent decoded then .leaderboard
  else if isWsX402Event decoded then .lifecycle
  else .unrecognized

/-!
Typed transaction events (the `type` declarations of `index.ts`,
lines 69-147) and the transaction summarizers (lines 442-473).
-/

inductive CommitmentLabel where
  | processed | confirmed
deriving DecidableEq, Repr

structure NativeTransfer where
  fromUserAccount : String
  toUserAccount : String
  amount : Int
deriving Repr

structure TokenTransfer where
  fromTokenAccount : String
  toTokenAccount : String
  fromUserAccount : String
  toUserAccount : String
  tokenAmount : Int
  mint : String
  tokenStandard : String
deriving Repr

structure RawTokenAmount where
  tokenAmount : String
  decimals : Int
deriving Repr

structure TokenBalanceChange where
  userAccount : String
  tokenAccount : String
  rawTokenAmount : RawTokenAmount
  mint : String
deriving Repr

structure AccountData where
  account : String
  nativeBalanceChange : Int
  tokenBalanceChanges : List TokenBalanceChange
deriving Repr

structure YellowstoneTokenBalanceChange where
  account : String
  mint : String
  owner : Option String
  decimals : Int
  preAmount : String
  preAmountUi : String
  postAmount : String
  postAmountUi : String
  delta : String
  deltaUi : String
deriving Repr

/-- `EnhancedTransactionEvent` (line 116).  The discriminant `type`
field is the literal `'transaction'` and `err` is an opaque blob the
summarizers never touch; both are omitted. -/
structure EnhancedTransactionEvent where
  commitment : CommitmentLabel
  slot : Int
  signature : String
  timestamp : Option Int
  isVote : Bool
  index : Int
  fee : Int
  feePayer : String
  accounts : Option (List String)
  nativeTransfers : List NativeTransfer
  tokenTransfers : List TokenTransfer
  accountData : List AccountData
  computeUnitsConsumed : Int
  logs : Option (List String)
deriving Repr

/-- `RawTransactionEvent` (line 135), with the same omissions. -/
structure RawTransactionEvent where
  commitment : CommitmentLabel
  slot : Int
  signature : String
  isVote : Bool
  index : Int
  accounts : Option (List String)
  tokenBalanceChanges : Option (List YellowstoneTokenBalanceChange)
  logs : Option (List String)
  computeUnitsConsumed : Int
deriving Repr

/-- Insertion into a JavaScript `Set<string>` viewed as its iteration
sequence: a `Set` remembers insertion order and ignores re-insertions. -/
def setAdd (s : List String) (x : String) : List String :=
  if x ∈ s then s else s ++ [x]

/-- The summary object built by `summarizeRawTransaction` (line 442). -/
structure RawTxSummary where
  signature : String
  slot : Int
  commitment : CommitmentLabel
  tokenBalanceChanges : Nat
  mints : List String
deriving Repr

/-- The summary object built by `summarizeEnhancedTransaction`
(line 456). -/
structure EnhancedTxSummary where
  signature : String
  slot : Int
  commitment : CommitmentLabel
  tokenTransfers : Nat
  mints : List String
deriving Repr

/-- `summarizeRawTransaction` (lines 442-454): collect the truthy mints
of `tokenBalanceChanges ?? []` into a `Set`, then `[...mints].slice(0, 5)`. -/
def summarizeRawTransaction (event : RawTransactionEvent) : RawTxSummary :=
  let mints := (event.tokenBalanceChanges.getD []).foldl
    (fun s change => if change.mint ≠ "" then setAdd s change.mint else s) []
  { signature := event.signature
    slot := event.slot
    commitment := event.commitment
    tokenBalanceChanges := (event.tokenBalanceChanges.getD []).length
    mints := mints.take 5 }

/-- `summarizeEnhancedTransaction` (lines 456-473): collect the truthy
mints of `tokenTransfers`, then of every `accountData[].tokenBalanceChanges`,
into one `Set`, then `[...mints].slice(0, 5)`. -/
def summarizeEnhancedTransaction (event : EnhancedTransactionEvent) : EnhancedTxSummary :=
  let mints := event.tokenTransfers.foldl
    (fun s transfer => if transfer.mint ≠ "" then setAdd s transfer.mint else s) []
  let mints := event.accountData.foldl
    (fun s change => change.tokenBalanceChanges.foldl
      (fun s tokenChange => if tokenChange.mint ≠ "" then setAdd s tokenChange.mint else s) s)
    mints
  { signature := event.signature
    slot := event.slot
    commitment := event.commitment
    tokenTransfers := event.tokenTransfers.length
    mints := mints.take 5 }

/-- Specification-side first-seen deduplication, written as a direct
recursion (keep the head, erase its later duplicates): independent of
the `Set`-fold used by the summarizers. -/
def eraseLaterDups : List String → List String
  | [] => []
  | x :: xs => x :: eraseLaterDups (xs.filter (fun y => y ≠ x))
termination_by l => l.length
decreasing_by
  simpa using Nat.lt_succ_of_le (List.length_filter_le _ _)

/-- The mints a raw transaction event encounters, in order, restricted
to the truthy ones (`if (change.mint)`). -/
def rawMintEncounters (event : RawTransactionEvent) : List String :=
  ((event.tokenBalanceChanges.getD []).map (·.mint)).filter (fun m => m ≠ "")

/-- The mints an enhanced transaction event encounters, in order:
`tokenTransfers` first, then the token balance changes of each
`accountData` entry, restricted to the truthy ones. -/
def enhancedMintEncounters (event : EnhancedTransactionEvent) : List String :=
  (event.tokenTransfers.map (·.mint)).filter (fun m => m ≠ "") ++
    ((event.accountData.flatMap (·.tokenBalanceChanges)).map (·.mint)).filter (fun m => m ≠ "")

/-!
URL helpers (lines 479-490).  The platform URL constructor
(`new URL`) is external to the repository: it is modelled by its
outcome, `none` standing for a thrown `TypeError` on an unparseable
URL, `some u` for a parsed URL reduced to its query parameter list.
-/

/-- A parsed URL, reduced to the part the client reads: its query
parameters in order.  `searchParams.get(name)` returns the first value
bound to `name`, or null when absent. -/
structure ParsedUrl where
  searchParams : List (String × String)
deriving Repr

/-- `parsed.searchParams.get(name)`: first binding of `name`. -/
def searchParamsGet (u : ParsedUrl) (name : String) : Option String :=
  (u.searchParams.find? (fun p => p.1 == name)).map (·.2)

/-- `parseTokenFromWsUrl` (line 479): read parameter `t` of the parsed
URL, `''` when it is absent or the URL constructor threw. -/
def parseTokenFromWsUrl (parsed : Option ParsedUrl) : String :=
  match parsed with
  | some u => (searchParamsGet u "t").getD ""
  | none => ""

inductive X402SchemaVersion where
  | v1 | v2
deriving DecidableEq, Repr

def X402SchemaVersion.label : X402SchemaVersion → String
  | .v1 => "v1"
  | .v2 => "v2"

/-- `buildRenewUrl` (line 488): resolve `/{version}/renew/stream/{streamId}`
against the HTTP base.  `new URL(path, base).toString()` is modelled as
concatenation against an origin-only base. -/
def buildRenewUrl (httpBase : String) (streamId : String) (version : X402SchemaVersion) : String :=
  httpBase ++ "/" ++ version.label ++ "/renew/stream/" ++ streamId

/-!
Schema acquisition and renewal (lines 525-582).  `fetch` and the x402
payment wrapper are external: each call is modelled by its outcome, an
`Except` whose `error` case stands for a rejection (network failure or
a throw inside the payment layer) and whose `ok` case carries the
response.  `resp.json()` throwing on a non-JSON body is folded into
`body = none`.
-/

/-- A fetch response as the client reads it: `ok`, `status`, and the
decoded JSON body (`none` when `resp.json()` would throw). -/
structure FetchResponse where
  ok : Bool
  status : Nat
  body : Option Json

/-- The record returned by `requestWs402Schema` (line 528). -/
structure SessionInfo where
  wsUrl : String
  token : String
  streamId : String
deriving DecidableEq, Repr

/-- `RenewResponse` (line 41). -/
structure RenewResponse where
  token : String
  expiresAt : String
  sliceSeconds : Int
deriving DecidableEq, Repr

/-- The stream id of a valid schema body: `data.stream.id`. -/
def schemaStreamId (data : Json) : String :=
  getStrField ((fieldObj data.objFields "stream").getD []) "id"

/-- `requestWs402Schema` (lines 525-544): check `resp.ok`, validate the
body shape, extract the token from the websocket endpoint URL, and fail
when it is empty.  `urlParse` is the platform URL parser. -/
def requestWs402Schema (urlParse : String → Option ParsedUrl)
    (fetched : Except String FetchResponse) : Except String SessionInfo :=
  match fetched with
  | .error e => .error e
  | .ok resp =>
    if resp.ok = false then .error ("x402 schema failed: " ++ toString resp.status)
    else
      match resp.body with
      | none => .error "schema response body is not json"
      | some data =>
        if isWs402StreamSchema data = false then .error "x402 schema response shape invalid"
        else
          let wsUrl := getStrField data.objFields "websocketEndpoint"
          let token := parseTokenFromWsUrl (urlParse wsUrl)
          if token = "" then .error "x402 schema missing token"
          else .ok { wsUrl := wsUrl, token := token, streamId := schemaStreamId data }

/-- An HTTP request the client issues for renewal: both renewal paths
POST a JSON body carrying the old token to the renewal URL. -/
structure HttpRequest where
  url : String
  method : String
  bodyToken : String
deriving DecidableEq, Repr

/-- Which summarizer the dispatcher chose for a transaction event. -/
inductive TxSummaryKind where
  | enhanced | raw
deriving DecidableEq, Repr

inductive EventFormat where
  | raw | enhanced
deriving DecidableEq, Repr

/-- The full output option set sent in `setOptions` (lines 612-622). -/
structure OutputOptions where
  includeAccounts : Bool
  includeTokenBalanceChanges : Bool
  includeLogs : Bool
  includeInstructions : Bool
  eventFormat : EventFormat
  filterTokenBalances : Bool
deriving DecidableEq, Repr

/-- Outbound websocket control messages (the `ws.send` payloads). -/
inductive OutMsg where
  | setOptions (options : OutputOptions)
  | setAccounts (accounts : List String)
  | setPrograms (programs : List String)
  | getState
  | renewToken (token : String)
  | renewInband (paymentRequirements : Json) (paymentPayload : Json)

/-- Observable actions of the client callbacks, in program order:
log lines (with their scope message), transaction log records, outbound
websocket sends, the HTTP requests of the renewal paths (`fetchPayment`
is the payment-wrapped fetch, `fetchPlain` the bare `fetch`), and the
backoff sleep. -/
inductive Action where
  | logDebug (message : String)
  | logInfo (message : String)
  | logWarn (message : String)
  | logError (message : String)
  | logTxSummary (kind : TxSummaryKind)
  | send (message : OutMsg)
  | fetchPayment (request : HttpRequest)
  | fetchPlain (request : HttpRequest)
  | sleep (ms : Nat)

/-- The outbound websocket messages among a list of actions. -/
def sendsOf (acts : List Action) : List OutMsg :=
  acts.filterMap (fun a => match a with | .send m => some m | _ => none)

/-- Is an action a renewal control send (`renew_token` / `renew_inband`)? -/
def isRenewSend : Action → Bool
  | .send (.renewToken _) => true
  | .send (.renewInband _ _) => true
  | _ => false

/-- `httpRenew` (lines 546-564): POST the old token to the renewal URL
through the payment-wrapped fetch; non-`ok` status or a body failing
`isRenewResponse` is an error.  Returns the actions performed and the
outcome; a thrown fetch becomes the error outcome. -/
def httpRenew (renewUrl : String) (oldToken : String)
    (fetched : Except String FetchResponse) : List Action × Except String RenewResponse :=
  let pre : List Action :=
    [.logInfo "requesting http renew",
     .fetchPayment { url := renewUrl, method := "POST", bodyToken := oldToken }]
  match fetched with
  | .error e => (pre, .error e)
  | .ok resp =>
    if resp.ok = false then (pre, .error ("renew failed: " ++ toString resp.status))
    else
      match resp.body with
      | none => (pre, .error "renew response body is not json")
      | some data =>
        if isRenewResponse data = false then (pre, .error "renew response shape invalid")
        else
          (pre ++ [.logInfo "http renew ok"],
           .ok { token := getStrField data.objFields "token"
                 expiresAt := getStrField data.objFields "expiresAt"
                 sliceSeconds := getNumField data.objFields "sliceSeconds" })

/-- The result of the bare `fetch` of the in-band challenge: the status
and the payment-required structure decoded by the external
`x402HTTPClient.getPaymentRequiredResponse`. -/
structure InbandFetchResult where
  status : Nat
  paymentRequired : Json

/-- `inbandRenewChallenge` (lines 566-582): plain POST of the old token;
any status other than 402 is an error; the decoded payment-required
structure must pass `isPaymentRequired`. -/
def inbandRenewChallenge (renewUrl : String) (oldToken : String)
    (fetched : Except String InbandFetchResult) : List Action × Except String Json :=
  let pre : List Action :=
    [.fetchPlain { url := renewUrl, method := "POST", bodyToken := oldToken }]
  match fetched with
  | .error e => (pre, .error e)
  | .ok r =>
    if r.status ≠ 402 then (pre, .error ("expected 402 challenge, got " ++ toString r.status))
    else if isPaymentRequired r.paymentRequired = false then
      (pre, .error "payment-required response shape invalid")
    else
      (pre ++ [.logInfo "received inband challenge"], .ok r.paymentRequired)

inductive RenewMethod where
  | http | inband
deriving DecidableEq, Repr

inductive TxLogMode where
  | summary | full
deriving DecidableEq, Repr

/-- The startup configuration the callbacks close over: renewal method,
transaction log mode, the renewal URL computed by `buildRenewUrl`, the
output options and the two watchlists. -/
structure Config where
  renewMethod : RenewMethod
  txLogMode : TxLogMode
  renewUrl : String
  options : OutputOptions
  watchAccounts : List String
  watchPrograms : List String

/-- The mutable client state: the single current token
(`let currentToken = schema.token`, line 596). -/
structure ClientState where
  currentToken : String
deriving DecidableEq, Repr

/-- The outcomes of the external calls a single handler invocation may
make: the payment-wrapped fetch of `httpRenew`, the bare fetch plus
payment-required decoding of `inbandRenewChallenge`, and
`client.createPaymentPayload`. -/
structure Env where
  httpFetched : Except String FetchResponse
  inbandFetched : Except String InbandFetchResult
  paymentPayload : Except String Json

/-- JavaScript truthiness of a JSON value (no `NaN`: see `Json.num`). -/
def truthy : Json → Bool
  | .null => false
  | .bool b => b
  | .num n => n ≠ 0
  | .str s => s ≠ ""
  | .arr _ => true
  | .obj _ => true

/-- The `op` string of a lifecycle event. -/
def opOf (decoded : Option Json) : String :=
  match decoded with
  | some (.obj fs) => getStrField fs "op"
  | _ => ""

/-- The `accepts` array of a payment-required structure. -/
def acceptsOf (paymentRequired : Json) : List Json :=
  match getField paymentRequired.objFields "accepts" with
  | some (.arr items) => items
  | _ => []

/-- The `ws.on('message')` callback (lines 637-731): classify the
decoded payload through the guard chain, log data events, warn on an
unrecognized shape, and on a `renewal_reminder` / `payment_required`
lifecycle event run the configured renewal path inside a try/catch
whose catch logs a warning and sleeps one second.  In summary mode a
transaction event is summarized by the enhanced summarizer exactly when
`isEnhancedTransactionEvent` holds (line 655); the summary payload
itself is `summarizeEnhancedTransaction` / `summarizeRawTransaction`
of the event, abstracted here to the chosen kind. -/
def handleMessage (cfg : Config) (env : Env) (st : ClientState) (decoded : Option Json) :
    ClientState × List Action :=
  if isWsStatusEvent decoded then (st, [.logInfo "status"])
  else if isWsTransactionEvent decoded then
    if cfg.txLogMode = .full then (st, [.logInfo "transaction"])
    else (st, [.logTxSummary (if isEnhancedTransactionEvent decoded then .enhanced else .raw)])
  else if isWsAccountEvent decoded then (st, [.logInfo "account"])
  else if isWsSlotEvent decoded then (st, [.logInfo "slot"])
  else if isWsTickerEvent decoded then (st, [.logInfo "ticker"])
  else if isWsLeaderboardEvent decoded then (st, [.logInfo "leaderboard"])
  else if isWsX402Event decoded = false then (st, [.logWarn "ws event ignored: invalid shape"])
  else
    let base : List Action := [.logInfo "ws event"]
    if opOf decoded = "renewal_reminder" ∨ opOf decoded = "payment_required" then
      if cfg.renewMethod = .http then
        match httpRenew cfg.renewUrl st.currentToken env.httpFetched with
        | (acts, .ok renewed) =>
          ({ currentToken := renewed.token },
           base ++ acts ++ [.logInfo "sending renew token", .send (.renewToken renewed.token)])
        | (acts, .error _) =>
          (st, base ++ acts ++ [.logWarn "renew error", .sleep 1000])
      else
        match inbandRenewChallenge cfg.renewUrl st.currentToken env.inbandFetched with
        | (acts, .error _) => (st, base ++ acts ++ [.logWarn "renew error", .sleep 1000])
        | (acts, .ok paymentRequired) =>
          let acts := acts ++ [.logInfo "creating inband payment payload"]
          match env.paymentPayload with
          | .error _ => (st, base ++ acts ++ [.logWarn "renew error", .sleep 1000])
          | .ok payload =>
            match (acceptsOf paymentRequired).head? with
            | some selected =>
              if truthy selected then
                (st, base ++ acts ++ [.send (.renewInband selected payload)])
              else (st, base ++ acts ++ [.logWarn "renew error", .sleep 1000])
            | none => (st, base ++ acts ++ [.logWarn "renew error", .sleep 1000])
    else (st, base)

/-- The `ws.on('open')` callback (lines 602-635): one `setOptions` with
the full options, `setAccounts` iff the account watchlist is non-empty,
`setPrograms` iff the program watchlist is non-empty, a warning when
both are empty, and a final `getState`. -/
def onOpen (cfg : Config) : List Action :=
  [.logInfo "ws open", .logInfo "setting options", .send (.setOptions cfg.options)] ++
  (if cfg.watchAccounts ≠ [] then
    [.logInfo "setting watch accounts", .send (.setAccounts cfg.watchAccounts)] else []) ++
  (if cfg.watchPrograms ≠ [] then
    [.logInfo "setting watch programs", .send (.setPrograms cfg.watchPrograms)] else []) ++
  (if cfg.watchAccounts = [] ∧ cfg.watchPrograms = [] then
    [.logWarn "no watchlists configured"] else []) ++
  [.send .getState]

/-- Run a sequence of inbound messages (each with the outcomes of its
external calls) through the handler, collecting the final state and the
whole action trace. -/
def runTrace (cfg : Config) (st : ClientState) :
    List (Env × Option Json) → ClientState × List Action
  | [] => (st, [])
  | (env, d) :: rest =>
    let step := handleMessage cfg env st d
    let tail := runTrace cfg step.1 rest
    (tail.1, step.2 ++ tail.2)

/-!
Interleaving model of the renewal path for the single-flight question.
The `ws.on('message')` callback is an `async` function and the `ws`
emitter does not await it: while one invocation is suspended at the
`await` of the fetch inside `httpRenew`, a further `'message'` event
delivery runs a fresh invocation.  The state below records the renewal
fetches that have been issued and are awaiting their response
(`pendingRenewals`, holding the token each POST carried); a deliver
step runs a new invocation for a renewal-triggering lifecycle event up
to that `await`, and a resolve step resumes the oldest suspended
invocation with its fetch outcome, mirroring the post-`await` half of
the `http` branch of `handleMessage`.
-/

structure AsyncState where
  currentToken : String
  pendingRenewals : List String
  sent : List OutMsg

/-- The pre-`await` half of a renewal-triggering invocation: the fetch
is issued carrying the current token. -/
def deliverEffect (s : AsyncState) : AsyncState :=
  { s with pendingRenewals := s.pendingRenewals ++ [s.currentToken] }

/-- One event-loop step: deliver a renewal-triggering message, or
resolve the oldest pending renewal fetch (successfully, assigning the
new token and sending `renew_token`, or with a failure, leaving the
state unchanged up to the completed await). -/
inductive AsyncStep : AsyncState → AsyncState → Prop
  | deliver (s : AsyncState) : AsyncStep s (deliverEffect s)
  | resolveOk (s : AsyncState) (tok : String) (rest : List String) (renewed : RenewResponse) :
      s.pendingRenewals = tok :: rest →
      AsyncStep s { currentToken := renewed.token
                    pendingRenewals := rest
                    sent := s.sent ++ [.renewToken renewed.token] }
  | resolveErr (s : AsyncState) (tok : String) (rest : List String) :
      s.pendingRenewals = tok :: rest →
      AsyncStep s { s with pendingRenewals := rest }

/-- Reachability under event-loop steps. -/
def AsyncReachable (s t : AsyncState) : Prop :=
  Relation.ReflTransGen AsyncStep s t

/-! Concrete inputs used by the witness and counterexample theorems. -/

def jStatus : Json := .obj [("type", .str "status"), ("now", .str "2025-01-13T10:30:00Z")]

def jTxRaw : Json := .obj
  [("type", .str "transaction"), ("signature", .str "sig-raw"), ("tokenBalanceChanges", .arr [])]

def jTxEnhanced : Json := .obj
  [("type", .str "transaction"), ("signature", .str "sig-enh"), ("nativeTransfers", .arr [])]

def jReminder : Json := .obj [("op", .str "renewal_reminder")]

def options0 : OutputOptions :=
  { includeAccounts := true
    includeTokenBalanceChanges := true
    includeLogs := false
    includeInstructions := false
    eventFormat := .enhanced
    filterTokenBalances := false }

def cfg0 (method : RenewMethod) : Config :=
  { renewMethod := method
    txLogMode := .summary
    renewUrl := buildRenewUrl "https://x402.atomicstream.net" "mempool-sniff" .v1
    options := options0
    watchAccounts := []
    watchPrograms := [] }

def st0 : ClientState := { currentToken := "tok0" }

def renewOkBody : Json := .obj
  [("token", .str "tok1"), ("expiresAt", .str "2025-01-13T10:35:00Z"), ("sliceSeconds", .num 300)]

def envHttp500 : Env :=
  { httpFetched := .ok { ok := false, status := 500, body := none }
    inbandFetched := .error "unused"
    paymentPayload := .error "unused" }

def envHttpOk : Env :=
  { httpFetched := .ok { ok := true, status := 200, body := some renewOkBody }
    inbandFetched := .error "unused"
    paymentPayload := .error "unused" }

def prNullAccepts : Json := .obj [("accepts", .arr [.null])]

def prOneAccept : Json := .obj [("accepts", .arr [.obj [("scheme", .str "exact")]])]

def envInbandNull : Env :=
  { httpFetched := .error "unused"
    inbandFetched := .ok { status := 402, paymentRequired := prNullAccepts }
    paymentPayload := .ok (.obj [("sig", .str "signed")]) }

def envInbandOk : Env :=
  { httpFetched := .error "unused"
    inbandFetched := .ok { status := 402, paymentRequired := prOneAccept }
    paymentPayload := .ok (.obj [("sig", .str "signed")]) }

def schemaBody (endpointUrl : String) : Json := .obj
  [("protocol", .str "ws402"),
   ("version", .str "1"),
   ("websocketEndpoint", .str endpointUrl),
   ("pricing", .obj
     [("pricePerSecond", .num 1), ("currency", .str "USDC"), ("estimatedDuration", .num 300)]),
   ("paymentDetails", .obj
     [("scheme", .str "exact"), ("network", .str "solana"), ("asset", .str "usdc-mint"),
      ("payTo", .str "dest"), ("maxAmountRequired", .str "3000000"), ("maxTimeoutSeconds", .num 60)]),
   ("stream", .obj
     [("id", .str "mempool-sniff"), ("title", .str "Mempool Sniff"), ("description", .str "txs")])]

def respSchema : FetchResponse :=
  { ok := true, status := 200, body := some (schemaBody "wss://stream.example/ws?t=abc123") }

/-- A URL parser outcome with a non-empty `t` query parameter. -/
def urlParseWithT : String → Option ParsedUrl := fun _ => some { searchParams := [("t", "abc123")] }

def mintTransfer (m : String) : TokenTransfer :=
  { fromTokenAccount := "ta1", toTokenAccount := "ta2", fromUserAccount := "ua1"
    toUserAccount := "ua2", tokenAmount := 1, mint := m, tokenStandard := "Fungible" }

/-- The worked example of the spec: token transfers whose mints are
encountered in the order A, B, A, C, D, E, F. -/
def exampleEnhancedEvent : EnhancedTransactionEvent :=
  { commitment := .processed, slot := 100, signature := "sig-example", timestamp := none
    isVote := false, index := 0, fee := 5000, feePayer := "payer", accounts := none
    nativeTransfers := [], tokenTransfers := ["A", "B", "A", "C", "D", "E", "F"].map mintTransfer
    accountData := [], computeUnitsConsumed := 0, logs := none }

def asyncInit : AsyncState := { currentToken := "tok0", pendingRenewals := [], sent := [] }

def mintBalanceChange (m : String) : YellowstoneTokenBalanceChange :=
  { account := "acc", mint := m, owner := none, decimals := 6, preAmount := "0"
    preAmountUi := "0", postAmount := "1", postAmountUi := "1", delta := "1", deltaUi := "1" }

def exampleRawEvent : RawTransactionEvent :=
  { commitment := .confirmed, slot := 200, signature := "sig-raw-example", isVote := false
    index := 1, accounts := none
    tokenBalanceChanges := some (["M1", "M2", "M1"].map mintBalanceChange)
    logs := none, computeUnitsConsumed := 0 }

/-! Specification statements, one per claim. -/

/-- C1: structural characterization of every variant guard, the
first-match-wins order of the classification chain, and the warning-only
treatment of unrecognized payloads. -/
def classifySpec (d : Option Json) : Prop :=
  (isWsStatusEvent d = true ↔
    ∃ fs, d = some (.obj fs) ∧ getField fs "type" = some (.str "status") ∧
      ∃ ts, getField fs "now" = some (.str ts)) ∧
  (isWsTransactionEvent d = true ↔
    ∃ fs, d = some (.obj fs) ∧ getField fs "type" = some (.str "transaction") ∧
      ∃ sg, getField fs "signature" = some (.str sg)) ∧
  (isWsAccountEvent d = true ↔
    ∃ fs, d = some (.obj fs) ∧ getField fs "type" = some (.str "account") ∧
      ∃ pk, getField fs "pubkey" = some (.str pk)) ∧
  (isWsSlotEvent d = true ↔
    ∃ fs, d = some (.obj fs) ∧ getField fs "type" = some (.str "slot") ∧
      ∃ n, getField fs "slot" = some (.num n)) ∧
  (isWsTickerEvent d = true ↔
    ∃ fs, d = some (.obj fs) ∧ getField fs "type" = some (.str "ticker") ∧
      ∃ bm, getField fs "baseMint" = some (.str bm)) ∧
  (isWsLeaderboardEvent d = true ↔
    ∃ fs, d = some (.obj fs) ∧ getField fs "type" = some (.str "leaderboard") ∧
      ∃ items, getField fs "items" = some (.arr items)) ∧
  (isWsX402Event d = true ↔
    ∃ fs op, d = some (.obj fs) ∧ getField fs "op" = some (.str op) ∧ op ∈ x402Ops) ∧
  (classify d = .status ↔ isWsStatusEvent d = true) ∧
  (classify d = .transaction ↔
    (isWsStatusEvent d = false ∧ isWsTransactionEvent d = true)) ∧
  (classify d = .account ↔
    (isWsStatusEvent d = false ∧ isWsTransactionEvent d = false ∧ isWsAccountEvent d = true)) ∧
  (classify d = .slot ↔
    (isWsStatusEvent d = false ∧ isWsTransactionEvent d = false ∧ isWsAccountEvent d = false ∧
     isWsSlotEvent d = true)) ∧
  (classify d = .ticker ↔
    (isWsStatusEvent d = false ∧ isWsTransactionEvent d = false ∧ isWsAccountEvent d = false ∧
     isWsSlotEvent d = false ∧ isWsTickerEvent d = true)) ∧
  (classify d = .leaderboard ↔
    (isWsStatusEvent d = false ∧ isWsTransactionEvent d = false ∧ isWsAccountEvent d = false ∧
     isWsSlotEvent d = false ∧ isWsTickerEvent d = false ∧ isWsLeaderboardEvent d = true)) ∧
  (classify d = .lifecycle ↔
    (isWsStatusEvent d = false ∧ isWsTransactionEvent d = false ∧ isWsAccountEvent d = false ∧
     isWsSlotEvent d = false ∧ isWsTickerEvent d = false ∧ isWsLeaderboardEvent d = false ∧
     isWsX402Event d = true)) ∧
  (classify d = .unrecognized ↔
    (isWsStatusEvent d = false ∧ isWsTransactionEvent d = false ∧ isWsAccountEvent d = false ∧
     isWsSlotEvent d = false ∧ isWsTickerEvent d = false ∧ isWsLeaderboardEvent d = false ∧
     isWsX402Event d = false)) ∧
  (∀ cfg env st, classify d = .unrecognized →
    handleMessage cfg env st d = (st, [Action.logWarn "ws event ignored: invalid shape"]))

/-- C2: both summarizers deduplicate the encountered truthy mints in
first-seen order, truncate to five, and copy the signature, slot,
commitment and count fields. -/
def summarizationSpec (eR : RawTransactionEvent) (eE : EnhancedTransactionEvent) : Prop :=
  (summarizeRawTransaction eR).mints = (eraseLaterDups (rawMintEncounters eR)).take 5 ∧
  (summarizeRawTransaction eR).mints.Nodup ∧
  (summarizeRawTransaction eR).mints.length ≤ 5 ∧
  (summarizeRawTransaction eR).mints.Sublist (rawMintEncounters eR) ∧
  (summarizeRawTransaction eR).signature = eR.signature ∧
  (summarizeRawTransaction eR).slot = eR.slot ∧
  (summarizeRawTransaction eR).commitment = eR.commitment ∧
  (summarizeRawTransaction eR).tokenBalanceChanges = (eR.tokenBalanceChanges.getD []).length ∧
  (summarizeEnhancedTransaction eE).mints = (eraseLaterDups (enhancedMintEncounters eE)).take 5 ∧
  (summarizeEnhancedTransaction eE).mints.Nodup ∧
  (summarizeEnhancedTransaction eE).mints.length ≤ 5 ∧
  (summarizeEnhancedTransaction eE).mints.Sublist (enhancedMintEncounters eE) ∧
  (summarizeEnhancedTransaction eE).signature = eE.signature ∧
  (summarizeEnhancedTransaction eE).slot = eE.slot ∧
  (summarizeEnhancedTransaction eE).commitment = eE.commitment ∧
  (summarizeEnhancedTransaction eE).tokenTransfers = eE.tokenTransfers.length

/-- C3: with a valid schema response, the session token is exactly the
`t` query parameter of the websocket endpoint when that parameter is
present and non-empty; a missing parameter, an empty one, or an
unparseable URL yields the empty token and the negotiation error. -/
def schemaAcquisitionSpec (urlParse : String → Option ParsedUrl)
    (resp : FetchResponse) (data : Json) : Prop :=
  (∀ u v, urlParse (getStrField data.objFields "websocketEndpoint") = some u →
     searchParamsGet u "t" = some v → v ≠ "" →
     parseTokenFromWsUrl (urlParse (getStrField data.objFields "websocketEndpoint")) = v ∧
     requestWs402Schema urlParse (.ok resp) =
       .ok { wsUrl := getStrField data.objFields "websocketEndpoint", token := v
             streamId := schemaStreamId data }) ∧
  (urlParse (getStrField data.objFields "websocketEndpoint") = none →
     parseTokenFromWsUrl (urlParse (getStrField data.objFields "websocketEndpoint")) = "") ∧
  (∀ u, urlParse (getStrField data.objFields "websocketEndpoint") = some u →
     searchParamsGet u "t" = none ∨ searchParamsGet u "t" = some "" →
     parseTokenFromWsUrl (urlParse (getStrField data.objFields "websocketEndpoint")) = "") ∧
  (parseTokenFromWsUrl (urlParse (getStrField data.objFields "websocketEndpoint")) = "" →
     requestWs402Schema urlParse (.ok resp) = .error "x402 schema missing token")

/-- Did a renewal call fail (`Except.error` outcome)? -/
def failed {α : Type} : Except String α → Bool
  | .error _ => true
  | .ok _ => false

/-- The in-band selection the handler would send: the challenge must
succeed, the payment payload must be produced, and the first entry of
`accepts` must exist and be truthy. -/
def inbandSelection (cfg : Config) (env : Env) (st : ClientState) : Option (Json × Json) :=
  match (inbandRenewChallenge cfg.renewUrl st.currentToken env.inbandFetched).2 with
  | .error _ => none
  | .ok pr =>
    match env.paymentPayload with
    | .error _ => none
    | .ok payload =>
      match (acceptsOf pr).head? with
      | some sel => if truthy sel then some (sel, payload) else none
      | none => none

/-- Does the renewal attempt of this message fail under the configured
method? -/
def renewalAttemptFails (cfg : Config) (env : Env) (st : ClientState) : Bool :=
  match cfg.renewMethod with
  | .http => failed (httpRenew cfg.renewUrl st.currentToken env.httpFetched).2
  | .inband => (inbandSelection cfg env st).isNone

/-- C4: a failed renewal is absorbed inside the handler: the state (and
so the token) is unchanged, the action trace ends with the warning and
the fixed one-second sleep, nothing is sent, no error-level log is
produced, and the handler treats every subsequent message exactly as it
would have before the failure. -/
def renewalFailureNonFatalSpec (cfg : Config) (env : Env) (st : ClientState)
    (d : Option Json) : Prop :=
  (handleMessage cfg env st d).1 = st ∧
  (∃ attempt, (handleMessage cfg env st d).2 =
     [Action.logInfo "ws event"] ++ attempt ++ [Action.logWarn "renew error", Action.sleep 1000]) ∧
  sendsOf (handleMessage cfg env st d).2 = [] ∧
  (∀ m, Action.logError m ∉ (handleMessage cfg env st d).2) ∧
  (∀ env2 d2, handleMessage cfg env2 (handleMessage cfg env st d).1 d2 = handleMessage cfg env2 st d2)

/-- C6: the direct renewal POSTs the old token to the renewal URL
through the payment-wrapped fetch; a non-success status or a body
failing `isRenewResponse` (string `token`, string `expiresAt`, numeric
`sliceSeconds`) is an error; success installs the returned token and
sends `renew_token` with it; failure leaves the token unchanged. -/
def httpRenewalSpec (cfg : Config) (env : Env) (st : ClientState) (d : Option Json) : Prop :=
  (Action.fetchPayment { url := cfg.renewUrl, method := "POST", bodyToken := st.currentToken } ∈
     (handleMessage cfg env st d).2) ∧
  (∀ resp, env.httpFetched = .ok resp → resp.ok = false →
     (httpRenew cfg.renewUrl st.currentToken env.httpFetched).2 =
       .error ("renew failed: " ++ toString resp.status)) ∧
  (∀ resp data, env.httpFetched = .ok resp → resp.ok = true → resp.body = some data →
     isRenewResponse data = false →
     (httpRenew cfg.renewUrl st.currentToken env.httpFetched).2 =
       .error "renew response shape invalid") ∧
  (∀ data, isRenewResponse data = true ↔
     ∃ fs, data = Json.obj fs ∧ (∃ t, getField fs "token" = some (.str t)) ∧
       (∃ x, getField fs "expiresAt" = some (.str x)) ∧
       ∃ n, getField fs "sliceSeconds" = some (.num n)) ∧
  (∀ renewed, (httpRenew cfg.renewUrl st.currentToken env.httpFetched).2 = .ok renewed →
     (handleMessage cfg env st d).1 = { currentToken := renewed.token } ∧
     Action.send (OutMsg.renewToken renewed.token) ∈ (handleMessage cfg env st d).2) ∧
  (∀ e, (httpRenew cfg.renewUrl st.currentToken env.httpFetched).2 = .error e →
     (handleMessage cfg env st d).1 = st ∧ sendsOf (handleMessage cfg env st d).2 = [])

/-- C7 (amended): the in-band challenge is a plain POST carrying the old
token; a non-402 status or a payment-required structure with a missing
or empty `accepts` is an error; when the challenge succeeds, the payload
is produced and the first requirement is truthy, the client sends
`renew_inband` with exactly that requirement and the payload; a falsy
first requirement aborts the renewal without sending anything. -/
def inbandRenewalSpec (cfg : Config) (env : Env) (st : ClientState) (d : Option Json) : Prop :=
  (Action.fetchPlain { url := cfg.renewUrl, method := "POST", bodyToken := st.currentToken } ∈
     (handleMessage cfg env st d).2) ∧
  (∀ r, env.inbandFetched = .ok r → r.status ≠ 402 →
     (inbandRenewChallenge cfg.renewUrl st.currentToken env.inbandFetched).2 =
       .error ("expected 402 challenge, got " ++ toString r.status)) ∧
  (∀ r, env.inbandFetched = .ok r → r.status = 402 →
     isPaymentRequired r.paymentRequired = false →
     (inbandRenewChallenge cfg.renewUrl st.currentToken env.inbandFetched).2 =
       .error "payment-required response shape invalid") ∧
  (∀ pr, isPaymentRequired pr = true ↔
     ∃ fs items, pr = Json.obj fs ∧ getField fs "accepts" = some (.arr items) ∧ items ≠ []) ∧
  (∀ pr payload sel,
     (inbandRenewChallenge cfg.renewUrl st.currentToken env.inbandFetched).2 = .ok pr →
     env.paymentPayload = .ok payload → (acceptsOf pr).head? = some sel → truthy sel = true →
     Action.send (OutMsg.renewInband sel payload) ∈ (handleMessage cfg env st d).2 ∧
     (handleMessage cfg env st d).1 = st) ∧
  (∀ pr payload sel,
     (inbandRenewChallenge cfg.renewUrl st.currentToken env.inbandFetched).2 = .ok pr →
     env.paymentPayload = .ok payload → (acceptsOf pr).head? = some sel → truthy sel = false →
     sendsOf (handleMessage cfg env st d).2 = [] ∧ (handleMessage cfg env st d).1 = st)

/-- C8: the first send on open is the full `setOptions`, `setAccounts`
and `setPrograms` are sent iff their watchlists are non-empty, the last
send is `getState`, the missing-watchlist warning appears iff both
watchlists are empty, and nothing fatal is emitted. -/
def openSequenceSpec (cfg : Config) : Prop :=
  sendsOf (onOpen cfg) =
    [OutMsg.setOptions cfg.options] ++
    (if cfg.watchAccounts ≠ [] then [OutMsg.setAccounts cfg.watchAccounts] else []) ++
    (if cfg.watchPrograms ≠ [] then [OutMsg.setPrograms cfg.watchPrograms] else []) ++
    [OutMsg.getState] ∧
  (sendsOf (onOpen cfg)).head? = some (OutMsg.setOptions cfg.options) ∧
  (sendsOf (onOpen cfg)).getLast? = some OutMsg.getState ∧
  ((∃ a, OutMsg.setAccounts a ∈ sendsOf (onOpen cfg)) ↔ cfg.watchAccounts ≠ []) ∧
  ((∃ p, OutMsg.setPrograms p ∈ sendsOf (onOpen cfg)) ↔ cfg.watchPrograms ≠ []) ∧
  ((Action.logWarn "no watchlists configured" ∈ onOpen cfg) ↔
    (cfg.watchAccounts = [] ∧ cfg.watchPrograms = [])) ∧
  (∀ m, Action.logError m ∉ onOpen cfg)

/-- C9: in summary mode a classified transaction event is summarized by
the enhanced summarizer exactly when it has a `nativeTransfers` key. -/
def transactionDispatchSpec (cfg : Config) (env : Env) (st : ClientState)
    (d : Option Json) : Prop :=
  (handleMessage cfg env st d).2 =
    [Action.logTxSummary (if isEnhancedTransactionEvent d then .enhanced else .raw)] ∧
  (handleMessage cfg env st d).1 = st ∧
  (Action.logTxSummary .enhanced ∈ (handleMessage cfg env st d).2 ↔
    isEnhancedTransactionEvent d = true) ∧
  (Action.logTxSummary .raw ∈ (handleMessage cfg env st d).2 ↔
    isEnhancedTransactionEvent d = false) ∧
  (isEnhancedTransactionEvent d = true ↔
    ∃ fs w, d = some (Json.obj fs) ∧ getField fs "nativeTransfers" = some w)

/-- C10: with the in-band method the client state (the current token)
survives any message sequence unchanged, every challenge POST carries
the original token, and the payment-wrapped renewal fetch is never
used. -/
def inbandTokenImmutableSpec (cfg : Config) (st : ClientState)
    (msgs : List (Env × Option Json)) : Prop :=
  (runTrace cfg st msgs).1 = st ∧
  (∀ req, Action.fetchPlain req ∈ (runTrace cfg st msgs).2 → req.bodyToken = st.currentToken) ∧
  (∀ req, Action.fetchPayment req ∉ (runTrace cfg st msgs).2)

/-- C5 (amended): per inbound message the handler sends at most one
renewal control message, each delivery of a renewal-triggering event
starts exactly one more in-flight renewal, and — since the handler has
no single-flight guard — a state with two simultaneously in-flight
renewals is reachable. -/
def singleFlightAmendedSpec : Prop :=
  (∀ cfg env st d, ((handleMessage cfg env st d).2.countP isRenewSend) ≤ 1) ∧
  (∀ s, (deliverEffect s).pendingRenewals.length = s.pendingRenewals.length + 1) ∧
  (∀ s, AsyncStep s (deliverEffect s)) ∧
  (∃ s, AsyncReachable asyncInit s ∧ s.pendingRenewals.length = 2)

/-! Helper lemmas on the field checks and the guards. -/

theorem fieldEqStr_iff (fs : List (String × Json)) (k s : String) :
    fieldEqStr fs k s = true ↔ getField fs k = some (.str s) := by
  unfold fieldEqStr
  cases h : getField fs k with
  | none => simp
  | some j => cases j <;> simp_all

theorem fieldIsStr_iff (fs : List (String × Json)) (k : String) :
    fieldIsStr fs k = true ↔ ∃ s, getField fs k = some (.str s) := by
  unfold fieldIsStr
  cases h : getField fs k with
  | none => simp
  | some j => cases j <;> simp_all

theorem fieldIsNum_iff (fs : List (String × Json)) (k : String) :
    fieldIsNum fs k = true ↔ ∃ n, getField fs k = some (.num n) := by
  unfold fieldIsNum
  cases h : getField fs k with
  | none => simp
  | some j => cases j <;> simp_all

theorem fieldIsArr_iff (fs : List (String × Json)) (k : String) :
    fieldIsArr fs k = true ↔ ∃ items, getField fs k = some (.arr items) := by
  unfold fieldIsArr
  cases h : getField fs k with
  | none => simp
  | some j => cases j <;> simp_all

theorem isWsStatusEvent_iff (d : Option Json) :
    isWsStatusEvent d = true ↔
      ∃ fs, d = some (.obj fs) ∧ getField fs "type" = some (.str "status") ∧
        ∃ ts, getField fs "now" = some (.str ts) := by
  cases d with
  | none => simp [isWsStatusEvent]
  | some j => cases j <;> simp [isWsStatusEvent, fieldEqStr_iff, fieldIsStr_iff]

theorem isWsTransactionEvent_iff (d : Option Json) :
    isWsTransactionEvent d = true ↔
      ∃ fs, d = some (.obj fs) ∧ getField fs "type" = some (.str "transaction") ∧
        ∃ sg, getField fs "signature" = some (.str sg) := by
  cases d with
  | none => simp [isWsTransactionEvent]
  | some j => cases j <;> simp [isWsTransactionEvent, fieldEqStr_iff, fieldIsStr_iff]

theorem isWsAccountEvent_iff (d : Option Json) :
    isWsAccountEvent d = true ↔
      ∃ fs, d = some (.obj fs) ∧ getField fs "type" = some (.str "account") ∧
        ∃ pk, getField fs "pubkey" = some (.str pk) := by
  cases d with
  | none => simp [isWsAccountEvent]
  | some j => cases j <;> simp [isWsAccountEvent, fieldEqStr_iff, fieldIsStr_iff]

theorem isWsSlotEvent_iff (d : Option Json) :
    isWsSlotEvent d = true ↔
      ∃ fs, d = some (.obj fs) ∧ getField fs "type" = some (.str "slot") ∧
        ∃ n, getField fs "slot" = some (.num n) := by
  cases d with
  | none => simp [isWsSlotEvent]
  | some j => cases j <;> simp [isWsSlotEvent, fieldEqStr_iff, fieldIsNum_iff]

theorem isWsTickerEvent_iff (d : Option Json) :
    isWsTickerEvent d = true ↔
      ∃ fs, d = some (.obj fs) ∧ getField fs "type" = some (.str "ticker") ∧
        ∃ bm, getField fs "baseMint" = some (.str bm) := by
  cases d with
  | none => simp [isWsTickerEvent]
  | some j => cases j <;> simp [isWsTickerEvent, fieldEqStr_iff, fieldIsStr_iff]

theorem isWsLeaderboardEvent_iff (d : Option Json) :
    isWsLeaderboardEvent d = true ↔
      ∃ fs, d = some (.obj fs) ∧ getField fs "type" = some (.str "leaderboard") ∧
        ∃ items, getField fs "items" = some (.arr items) := by
  cases d with
  | none => simp [isWsLeaderboardEvent]
  | some j => cases j <;> simp [isWsLeaderboardEvent, fieldEqStr_iff, fieldIsArr_iff]

theorem isWsX402Event_iff (d : Option Json) :
    isWsX402Event d = true ↔
      ∃ fs op, d = some (.obj fs) ∧ getField fs "op" = some (.str op) ∧ op ∈ x402Ops := by
  cases d with
  | none => simp [isWsX402Event]
  | some j =>
    cases j with
    | obj fs =>
      simp only [isWsX402Event, Option.some.injEq]
      cases h : getField fs "op" with
      | none => simp [h]
      | some w =>
        cases w <;>
          simp_all [List.contains_iff_exists_mem_beq, beq_iff_eq, Json.obj.injEq]
    | null => simp [isWsX402Event]
    | bool b => simp [isWsX402Event]
    | num n => simp [isWsX402Event]
    | str s => simp [isWsX402Event]
    | arr items => simp [isWsX402Event]

theorem classify_cases (d : Option Json) :
    (classify d = .status ↔ isWsStatusEvent d = true) ∧
    (classify d = .transaction ↔
      (isWsStatusEvent d = false ∧ isWsTransactionEvent d = true)) ∧
    (classify d = .account ↔
      (isWsStatusEvent d = false ∧ isWsTransactionEvent d = false ∧
       isWsAccountEvent d = true)) ∧
    (classify d = .slot ↔
      (isWsStatusEvent d = false ∧ isWsTransactionEvent d = false ∧
       isWsAccountEvent d = false ∧ isWsSlotEvent d = true)) ∧
    (classify d = .ticker ↔
      (isWsStatusEvent d = false ∧ isWsTransactionEvent d = false ∧
       isWsAccountEvent d = false ∧ isWsSlotEvent d = false ∧ isWsTickerEvent d = true)) ∧
    (classify d = .leaderboard ↔
      (isWsStatusEvent d = false ∧ isWsTransactionEvent d = false ∧
       isWsAccountEvent d = false ∧ isWsSlotEvent d = false ∧ isWsTickerEvent d = false ∧
       isWsLeaderboardEvent d = true)) ∧
    (classify d = .lifecycle ↔
      (isWsStatusEvent d = false ∧ isWsTransactionEvent d = false ∧
       isWsAccountEvent d = false ∧ isWsSlotEvent d = false ∧ isWsTickerEvent d = false ∧
       isWsLeaderboardEvent d = false ∧ isWsX402Event d = true)) ∧
    (classify d = .unrecognized ↔
      (isWsStatusEvent d = false ∧ isWsTransactionEvent d = false ∧
       isWsAccountEvent d = false ∧ isWsSlotEvent d = false ∧ isWsTickerEvent d = false ∧
       isWsLeaderboardEvent d = false ∧ isWsX402Event d = false)) := by
  unfold classify
  split_ifs with h1 h2 h3 h4 h5 h6 h7 <;> simp_all

/-- C1: classification evaluates the variant predicates in the fixed
order status, transaction, account, slot, ticker, leaderboard,
lifecycle, the first structural match wins, each predicate requires
exactly the tag-and-field shape listed in the claim, and a payload
matching none of them — including non-JSON bytes, which decode to
`none` — is dropped with only a diagnostic warning and never an
error. -/
theorem c1_classification : (∀ d, classifySpec d) ∧ classify none = EventTag.unrecognized := by
  constructor
  · intro d
    have hc := classify_cases d
    unfold classifySpec
    refine ⟨isWsStatusEvent_iff d, isWsTransactionEvent_iff d, isWsAccountEvent_iff d,
      isWsSlotEvent_iff d, isWsTickerEvent_iff d, isWsLeaderboardEvent_iff d,
      isWsX402Event_iff d, hc.1, hc.2.1, hc.2.2.1, hc.2.2.2.1, hc.2.2.2.2.1,
      hc.2.2.2.2.2.1, hc.2.2.2.2.2.2.1, hc.2.2.2.2.2.2.2, ?_⟩
    intro cfg env st h
    obtain ⟨g1, g2, g3, g4, g5, g6, g7⟩ := (hc.2.2.2.2.2.2.2).mp h
    unfold handleMessage
    simp [g1, g2, g3, g4, g5, g6, g7]
  · rfl

/-- Witness for C1 at concrete inputs: a well-formed status payload and
the `undefined` decode result of non-JSON bytes. -/
theorem c1_classification_witness :
    classifySpec (some jStatus) ∧ classify none = EventTag.unrecognized :=
  ⟨c1_classification.1 (some jStatus), c1_classification.2⟩

/-! Helper lemmas for the summarizers: the `Set`-fold is first-seen
deduplication. -/

theorem setAdd_mem (s : List String) (x : String) (h : x ∈ s) : setAdd s x = s := by
  simp [setAdd, h]

theorem setAdd_not_mem (s : List String) (x : String) (h : x ∉ s) : setAdd s x = s ++ [x] := by
  simp [setAdd, h]

theorem filter_filter_not_mem (xs acc : List String) (x : String) :
    (xs.filter (fun y => decide (y ∉ acc))).filter (fun y => decide (y ≠ x)) =
      xs.filter (fun y => decide (y ∉ acc ++ [x])) := by
  rw [List.filter_filter]
  apply List.filter_congr
  intro a _
  simp only [List.mem_append, List.mem_singleton, not_or]
  rw [Bool.decide_and]
  rw [Bool.and_comm]

theorem foldl_setAdd_eq (l : List String) :
    ∀ acc, l.foldl setAdd acc = acc ++ eraseLaterDups (l.filter (fun x => decide (x ∉ acc))) := by
  induction l with
  | nil =>
    intro acc
    simp [eraseLaterDups]
  | cons x xs ih =>
    intro acc
    rw [List.foldl_cons]
    by_cases hx : x ∈ acc
    · rw [setAdd_mem acc x hx, ih acc]
      have hf : (x :: xs).filter (fun y => decide (y ∉ acc)) =
          xs.filter (fun y => decide (y ∉ acc)) := by
        simp [List.filter_cons, hx]
      rw [hf]
    · rw [setAdd_not_mem acc x hx, ih (acc ++ [x]), List.append_assoc]
      have hf : (x :: xs).filter (fun y => decide (y ∉ acc)) =
          x :: xs.filter (fun y => decide (y ∉ acc)) := by
        simp [List.filter_cons, hx]
      rw [hf]
      have he : eraseLaterDups (x :: xs.filter (fun y => decide (y ∉ acc))) =
          x :: eraseLaterDups ((xs.filter (fun y => decide (y ∉ acc))).filter
            (fun y => decide (y ≠ x))) := by
        simp [eraseLaterDups]
      rw [he, filter_filter_not_mem]
      rfl

theorem foldl_setAdd_nil (l : List String) :
    l.foldl setAdd [] = eraseLaterDups l := by
  rw [foldl_setAdd_eq]
  have : l.filter (fun x => decide (x ∉ ([] : List String))) = l := by
    apply List.filter_eq_self.mpr
    intro a _
    simp
  rw [this, List.nil_append]

theorem foldl_cond_setAdd {α : Type} (f : α → String) (l : List α) :
    ∀ acc, l.foldl (fun s c => if f c ≠ "" then setAdd s (f c) else s) acc =
      ((l.map f).filter (fun m => decide (m ≠ ""))).foldl setAdd acc := by
  induction l with
  | nil => intro acc; rfl
  | cons c cs ih =>
    intro acc
    rw [List.foldl_cons, List.map_cons, List.filter_cons]
    by_cases h : f c = ""
    · rw [if_neg (fun hh => hh h), if_neg (by simp [h])]
      exact ih acc
    · rw [if_pos h, if_pos (by simp [h]), List.foldl_cons]
      exact ih (setAdd acc (f c))

theorem foldl_nested_flatMap {α β σ : Type} (g : σ → β → σ) (f : α → List β) (l : List α) :
    ∀ init, l.foldl (fun s a => (f a).foldl g s) init = (l.flatMap f).foldl g init := by
  induction l with
  | nil => intro init; rfl
  | cons a as ih =>
    intro init
    simp [List.foldl_cons, List.foldl_append, ih]

theorem mem_eraseLaterDups (a : String) (l : List String) :
    a ∈ eraseLaterDups l ↔ a ∈ l := by
  induction l using eraseLaterDups.induct with
  | case1 => simp [eraseLaterDups]
  | case2 x xs ih =>
    rw [show eraseLaterDups (x :: xs) =
      x :: eraseLaterDups (xs.filter (fun y => decide (y ≠ x))) from by simp [eraseLaterDups]]
    rw [List.mem_cons, ih, List.mem_filter]
    by_cases hax : a = x <;> simp [hax]

theorem nodup_eraseLaterDups (l : List String) : (eraseLaterDups l).Nodup := by
  induction l using eraseLaterDups.induct with
  | case1 => simp [eraseLaterDups]
  | case2 x xs ih =>
    rw [show eraseLaterDups (x :: xs) =
      x :: eraseLaterDups (xs.filter (fun y => decide (y ≠ x))) from by simp [eraseLaterDups]]
    rw [List.nodup_cons]
    refine ⟨?_, ih⟩
    intro hmem
    rw [mem_eraseLaterDups] at hmem
    simp [List.mem_filter] at hmem

theorem sublist_eraseLaterDups (l : List String) : (eraseLaterDups l).Sublist l := by
  induction l using eraseLaterDups.induct with
  | case1 => simp [eraseLaterDups]
  | case2 x xs ih =>
    rw [show eraseLaterDups (x :: xs) =
      x :: eraseLaterDups (xs.filter (fun y => decide (y ≠ x))) from by simp [eraseLaterDups]]
    exact List.Sublist.cons₂ x (ih.trans (List.filter_sublist xs))

theorem summarizeRaw_mints (e : RawTransactionEvent) :
    (summarizeRawTransaction e).mints = (eraseLaterDups (rawMintEncounters e)).take 5 := by
  simp only [summarizeRawTransaction, rawMintEncounters]
  rw [foldl_cond_setAdd (fun c : YellowstoneTokenBalanceChange => c.mint), foldl_setAdd_nil]

theorem summarizeEnhanced_mints (e : EnhancedTransactionEvent) :
    (summarizeEnhancedTransaction e).mints = (eraseLaterDups (enhancedMintEncounters e)).take 5 := by
  simp only [summarizeEnhancedTransaction, enhancedMintEncounters]
  rw [foldl_cond_setAdd (fun t : TokenTransfer => t.mint)]
  rw [foldl_nested_flatMap
    (fun (s : List String) (tokenChange : TokenBalanceChange) =>
      if tokenChange.mint ≠ "" then setAdd s tokenChange.mint else s)
    (fun c : AccountData => c.tokenBalanceChanges)]
  rw [foldl_cond_setAdd (fun tc : TokenBalanceChange => tc.mint)]
  rw [← List.foldl_append, foldl_setAdd_nil]

/-- C2: in summary mode each transaction summary carries the distinct
truthy mints in first-seen encounter order truncated to five entries,
together with the signature, slot, commitment and transfer/balance-change
count of the event; mints `[A, B, A, C, D, E, F]` summarize to
`[A, B, C, D, E]`. -/
theorem c2_summarization :
    (∀ eR eE, summarizationSpec eR eE) ∧
    (summarizeEnhancedTransaction exampleEnhancedEvent).mints = ["A", "B", "C", "D", "E"] := by
  constructor
  · intro eR eE
    have hR := summarizeRaw_mints eR
    have hE := summarizeEnhanced_mints eE
    unfold summarizationSpec
    refine ⟨hR, ?_, ?_, ?_, rfl, rfl, rfl, rfl, hE, ?_, ?_, ?_, rfl, rfl, rfl, rfl⟩
    · rw [hR]
      exact List.Nodup.sublist (List.take_sublist 5 _) (nodup_eraseLaterDups _)
    · rw [hR]
      exact List.length_take_le 5 _
    · rw [hR]
      exact (List.take_sublist 5 _).trans (sublist_eraseLaterDups _)
    · rw [hE]
      exact List.Nodup.sublist (List.take_sublist 5 _) (nodup_eraseLaterDups _)
    · rw [hE]
      exact List.length_take_le 5 _
    · rw [hE]
      exact (List.take_sublist 5 _).trans (sublist_eraseLaterDups _)
  · decide

/-- Witness for C2 at concrete raw and enhanced events. -/
theorem c2_summarization_witness : summarizationSpec exampleRawEvent exampleEnhancedEvent :=
  c2_summarization.1 exampleRawEvent exampleEnhancedEvent

/-- C3: for every shape-valid schema response, the session token is
exactly the non-empty `t` query parameter of the websocket endpoint,
and a missing `t`, an empty `t`, or an unparseable endpoint URL yields
the empty token and the negotiation failure instead of a session
descriptor. -/
theorem c3_token_extraction :
    ∀ (urlParse : String → Option ParsedUrl) (resp : FetchResponse) (data : Json),
      resp.ok = true → resp.body = some data → isWs402StreamSchema data = true →
      schemaAcquisitionSpec urlParse resp data := by
  intro urlParse resp data hok hbody hschema
  unfold schemaAcquisitionSpec
  have hreq : requestWs402Schema urlParse (Except.ok resp) =
      (if parseTokenFromWsUrl (urlParse (getStrField data.objFields "websocketEndpoint")) = ""
       then Except.error "x402 schema missing token"
       else Except.ok
         { wsUrl := getStrField data.objFields "websocketEndpoint"
           token := parseTokenFromWsUrl (urlParse (getStrField data.objFields "websocketEndpoint"))
           streamId := schemaStreamId data }) := by
    unfold requestWs402Schema
    simp [hok, hbody, hschema]
  refine ⟨?_, ?_, ?_, ?_⟩
  · intro u v hu hv hne
    have htok : parseTokenFromWsUrl
        (urlParse (getStrField data.objFields "websocketEndpoint")) = v := by
      rw [hu]
      simp [parseTokenFromWsUrl, hv]
    refine ⟨htok, ?_⟩
    rw [hreq, htok, if_neg hne]
  · intro hnone
    rw [hnone]
    rfl
  · intro u hu hv
    rcases hv with hv | hv <;> (rw [hu]; simp [parseTokenFromWsUrl, hv])
  · intro htok
    rw [hreq, if_pos htok]

/-- Witness for C3: a full valid schema body whose endpoint URL parses
with `t=abc123`; the extracted session token is exactly `abc123`. -/
theorem c3_token_extraction_witness :
    schemaAcquisitionSpec urlParseWithT respSchema
      (schemaBody "wss://stream.example/ws?t=abc123") :=
  c3_token_extraction urlParseWithT respSchema
    (schemaBody "wss://stream.example/ws?t=abc123") rfl rfl (by decide)

/-! Helper lemmas on the renewal attempt actions. -/

theorem httpRenew_acts (u t : String) (f : Except String FetchResponse) :
    (httpRenew u t f).1 =
      [Action.logInfo "requesting http renew",
       Action.fetchPayment { url := u, method := "POST", bodyToken := t }] ∨
    (httpRenew u t f).1 =
      [Action.logInfo "requesting http renew",
       Action.fetchPayment { url := u, method := "POST", bodyToken := t },
       Action.logInfo "http renew ok"] := by
  unfold httpRenew
  rcases f with e | resp
  · left; rfl
  · by_cases hok : resp.ok = false
    · simp [hok]
    · cases hb : resp.body with
      | none => simp [hok, hb]
      | some data =>
        by_cases hr : isRenewResponse data = false <;> simp [hok, hb, hr]

theorem inbandChallenge_acts (u t : String) (f : Except String InbandFetchResult) :
    (inbandRenewChallenge u t f).1 =
      [Action.fetchPlain { url := u, method := "POST", bodyToken := t }] ∨
    (inbandRenewChallenge u t f).1 =
      [Action.fetchPlain { url := u, method := "POST", bodyToken := t },
       Action.logInfo "received inband challenge"] := by
  unfold inbandRenewChallenge
  rcases f with e | r
  · left; rfl
  · by_cases hs : r.status ≠ 402
    · simp [hs]
    · by_cases hp : isPaymentRequired r.paymentRequired = false <;> simp [hs, hp]

/-- Reduction of the handler on a renewal-triggering lifecycle event
with the `http` method, split on the renewal outcome. -/
theorem handleMessage_renew_http (cfg : Config) (env : Env) (st : ClientState) (d : Option Json)
    (hlc : classify d = .lifecycle)
    (hop : opOf d = "renewal_reminder" ∨ opOf d = "payment_required")
    (hm : cfg.renewMethod = .http) :
    (∃ renewed, (httpRenew cfg.renewUrl st.currentToken env.httpFetched).2 = .ok renewed ∧
       handleMessage cfg env st d =
         ({ currentToken := renewed.token },
          [Action.logInfo "ws event"] ++ (httpRenew cfg.renewUrl st.currentToken env.httpFetched).1 ++
            [Action.logInfo "sending renew token", Action.send (.renewToken renewed.token)])) ∨
    (∃ e, (httpRenew cfg.renewUrl st.currentToken env.httpFetched).2 = .error e ∧
       handleMessage cfg env st d =
         (st, [Action.logInfo "ws event"] ++ (httpRenew cfg.renewUrl st.currentToken env.httpFetched).1 ++
           [Action.logWarn "renew error", Action.sleep 1000])) := by
  obtain ⟨g1, g2, g3, g4, g5, g6, g7⟩ := ((classify_cases d).2.2.2.2.2.2.1).mp hlc
  rcases hr : httpRenew cfg.renewUrl st.currentToken env.httpFetched with ⟨acts, res⟩
  cases res with
  | ok renewed =>
    left
    refine ⟨renewed, rfl, ?_⟩
    unfold handleMessage
    simp [g1, g2, g3, g4, g5, g6, g7, hop, hm, hr]
  | error e =>
    right
    refine ⟨e, rfl, ?_⟩
    unfold handleMessage
    simp [g1, g2, g3, g4, g5, g6, g7, hop, hm, hr]

/-- Reduction of the handler on a renewal-triggering lifecycle event
with the `inband` method whose renewal attempt fails at any stage. -/
theorem handleMessage_inband_fail (cfg : Config) (env : Env) (st : ClientState) (d : Option Json)
    (hlc : classify d = .lifecycle)
    (hop : opOf d = "renewal_reminder" ∨ opOf d = "payment_required")
    (hm : cfg.renewMethod = .inband)
    (hfail : inbandSelection cfg env st = none) :
    ∃ attempt, handleMessage cfg env st d =
      (st, [Action.logInfo "ws event"] ++ attempt ++
        [Action.logWarn "renew error", Action.sleep 1000]) ∧
      sendsOf attempt = [] ∧ (∀ m, Action.logError m ∉ attempt) ∧
      Action.fetchPlain { url := cfg.renewUrl, method := "POST", bodyToken := st.currentToken } ∈
        attempt ∧
      (∀ req, Action.fetchPlain req ∈ attempt →
        req = { url := cfg.renewUrl, method := "POST", bodyToken := st.currentToken }) ∧
      (∀ req, Action.fetchPayment req ∉ attempt) := by
  obtain ⟨g1, g2, g3, g4, g5, g6, g7⟩ := ((classify_cases d).2.2.2.2.2.2.1).mp hlc
  have hacts := inbandChallenge_acts cfg.renewUrl st.currentToken env.inbandFetched
  rcases hc : (inbandRenewChallenge cfg.renewUrl st.currentToken env.inbandFetched).2 with e | pr
  · refine ⟨(inbandRenewChallenge cfg.renewUrl st.currentToken env.inbandFetched).1,
      ?_, ?_, ?_, ?_, ?_, ?_⟩
    · unfold handleMessage
      rcases hfull : inbandRenewChallenge cfg.renewUrl st.currentToken env.inbandFetched with ⟨acts, res⟩
      rw [hfull] at hc
      simp only at hc
      subst hc
      simp [g1, g2, g3, g4, g5, g6, g7, hop, hm, hfull]
    · rcases hacts with h | h <;> rw [h] <;> rfl
    · rcases hacts with h | h <;> rw [h] <;> intro m <;> simp
    · rcases hacts with h | h <;> rw [h] <;> simp
    · intro req hreq
      rcases hacts with h | h <;> rw [h] at hreq <;> simpa using hreq
    · intro req
      rcases hacts with h | h <;> rw [h] <;> simp
  · rcases hp : env.paymentPayload with e | payload
    · refine ⟨(inbandRenewChallenge cfg.renewUrl st.currentToken env.inbandFetched).1 ++
        [Action.logInfo "creating inband payment payload"], ?_, ?_, ?_, ?_, ?_, ?_⟩
      · unfold handleMessage
        rcases hfull : inbandRenewChallenge cfg.renewUrl st.currentToken env.inbandFetched with ⟨acts, res⟩
        rw [hfull] at hc
        simp only at hc
        subst hc
        simp [g1, g2, g3, g4, g5, g6, g7, hop, hm, hfull, hp]
      · rcases hacts with h | h <;> rw [h] <;> rfl
      · rcases hacts with h | h <;> rw [h] <;> intro m <;> simp
      · rcases hacts with h | h <;> rw [h] <;> simp
      · intro req hreq
        rcases hacts with h | h <;> rw [h] at hreq <;> simpa using hreq
      · intro req
        rcases hacts with h | h <;> rw [h] <;> simp
    · refine ⟨(inbandRenewChallenge cfg.renewUrl st.currentToken env.inbandFetched).1 ++
        [Action.logInfo "creating inband payment payload"], ?_, ?_, ?_, ?_, ?_, ?_⟩
      · unfold handleMessage
        rcases hfull : inbandRenewChallenge cfg.renewUrl st.currentToken env.inbandFetched with ⟨acts, res⟩
        rw [hfull] at hc
        simp only at hc
        subst hc
        rcases hh : (acceptsOf pr).head? with _ | sel
        · simp [g1, g2, g3, g4, g5, g6, g7, hop, hm, hfull, hp, hh]
        · by_cases ht : truthy sel = true
          · exfalso
            have hsel : inbandSelection cfg env st = some (sel, payload) := by
              unfold inbandSelection
              rw [hfull]
              simp only
              rw [hp, hh]
              simp [ht]
            rw [hfail] at hsel
            exact Option.noConfusion hsel
          · simp only [Bool.not_eq_true] at ht
            simp [g1, g2, g3, g4, g5, g6, g7, hop, hm, hfull, hp, hh, ht]
      · rcases hacts with h | h <;> rw [h] <;> rfl
      · rcases hacts with h | h <;> rw [h] <;> intro m <;> simp
      · rcases hacts with h | h <;> rw [h] <;> simp
      · intro req hreq
        rcases hacts with h | h <;> rw [h] at hreq <;> simpa using hreq
      · intro req
        rcases hacts with h | h <;> rw [h] <;> simp

/-- C4: every failed renewal attempt (either strategy; non-success
status, malformed body, or a thrown error) is caught inside the message
handler: a warning is logged followed by the fixed one-second sleep,
nothing is sent, no error-level log is produced, the state — hence the
token — is unchanged, and subsequent inbound messages are handled
exactly as before. -/
theorem c4_renewal_failure_nonfatal :
    ∀ cfg env st d, classify d = .lifecycle →
      (opOf d = "renewal_reminder" ∨ opOf d = "payment_required") →
      renewalAttemptFails cfg env st = true →
      renewalFailureNonFatalSpec cfg env st d := by
  intro cfg env st d hlc hop hfail
  unfold renewalFailureNonFatalSpec
  unfold renewalAttemptFails at hfail
  cases hm : cfg.renewMethod with
  | http =>
    rw [hm] at hfail
    rcases handleMessage_renew_http cfg env st d hlc hop hm with ⟨renewed, hres, hh⟩ | ⟨e, hres, hh⟩
    · rw [hres] at hfail
      simp [failed] at hfail
    · have hacts := httpRenew_acts cfg.renewUrl st.currentToken env.httpFetched
      refine ⟨by rw [hh], ⟨(httpRenew cfg.renewUrl st.currentToken env.httpFetched).1, by rw [hh]⟩,
        ?_, ?_, ?_⟩
      · rw [hh]
        rcases hacts with h | h <;> rw [h] <;> rfl
      · intro m
        rw [hh]
        rcases hacts with h | h <;> rw [h] <;> simp
      · intro env2 d2
        rw [hh]
  | inband =>
    rw [hm] at hfail
    simp only [Option.isNone_iff_eq_none] at hfail
    rcases handleMessage_inband_fail cfg env st d hlc hop hm hfail with
      ⟨attempt, hh, hsends, herr, -, -, -⟩
    refine ⟨by rw [hh], ⟨attempt, by rw [hh]⟩, ?_, ?_, ?_⟩
    · rw [hh]
      unfold sendsOf at hsends ⊢
      simp [List.filterMap_append, hsends]
    · intro m
      rw [hh]
      simpa using herr m
    · intro env2 d2
      rw [hh]

/-- Witness for C4: an HTTP renewal answered with status 500 on a
`renewal_reminder` event. -/
theorem c4_renewal_failure_nonfatal_witness :
    renewalFailureNonFatalSpec (cfg0 .http) envHttp500 st0 (some jReminder) :=
  c4_renewal_failure_nonfatal (cfg0 .http) envHttp500 st0 (some jReminder)
    (by decide) (Or.inl (by decide)) (by decide)

/-- Reduction of the handler on a renewal-triggering lifecycle event
with the `inband` method whose challenge, payload, and truthy first
requirement all succeed. -/
theorem handleMessage_inband_ok (cfg : Config) (env : Env) (st : ClientState) (d : Option Json)
    (hlc : classify d = .lifecycle)
    (hop : opOf d = "renewal_reminder" ∨ opOf d = "payment_required")
    (hm : cfg.renewMethod = .inband)
    (pr payload sel : Json)
    (hc : (inbandRenewChallenge cfg.renewUrl st.currentToken env.inbandFetched).2 = .ok pr)
    (hp : env.paymentPayload = .ok payload)
    (hh : (acceptsOf pr).head? = some sel)
    (ht : truthy sel = true) :
    handleMessage cfg env st d =
      (st, [Action.logInfo "ws event"] ++
        (inbandRenewChallenge cfg.renewUrl st.currentToken env.inbandFetched).1 ++
        [Action.logInfo "creating inband payment payload",
         Action.send (.renewInband sel payload)]) := by
  obtain ⟨g1, g2, g3, g4, g5, g6, g7⟩ := ((classify_cases d).2.2.2.2.2.2.1).mp hlc
  unfold handleMessage
  rcases hfull : inbandRenewChallenge cfg.renewUrl st.currentToken env.inbandFetched with ⟨acts, res⟩
  rw [hfull] at hc
  simp only at hc
  subst hc
  simp [g1, g2, g3, g4, g5, g6, g7, hop, hm, hfull, hp, hh, ht]

/-- C6: direct (http) renewal POSTs the old token to the renewal URL,
treats a non-success status or a body without string `token`, string
`expiresAt` and numeric `sliceSeconds` as an error, sends `renew_token`
with the new token on success, and mutates the current token only
then. -/
theorem c6_http_renewal :
    ∀ cfg env st d, classify d = .lifecycle →
      (opOf d = "renewal_reminder" ∨ opOf d = "payment_required") →
      cfg.renewMethod = .http →
      httpRenewalSpec cfg env st d := by
  intro cfg env st d hlc hop hm
  unfold httpRenewalSpec
  have hcases := handleMessage_renew_http cfg env st d hlc hop hm
  have hacts := httpRenew_acts cfg.renewUrl st.currentToken env.httpFetched
  refine ⟨?_, ?_, ?_, ?_, ?_, ?_⟩
  · rcases hcases with ⟨renewed, hres, hh⟩ | ⟨e, hres, hh⟩ <;> rw [hh] <;>
      (rcases hacts with h | h <;> rw [h] <;> simp)
  · intro resp hf hok
    simp [httpRenew, hf, hok]
  · intro resp data hf hok hbody hshape
    simp [httpRenew, hf, hok, hbody, hshape]
  · intro data
    cases data <;> simp [isRenewResponse, fieldIsStr_iff, fieldIsNum_iff, and_assoc]
  · intro renewed hres
    rcases hcases with ⟨r2, hres2, hh⟩ | ⟨e, hres2, hh⟩
    · rw [hres] at hres2
      injection hres2 with h2
      subst h2
      rw [hh]
      refine ⟨rfl, ?_⟩
      rcases hacts with h | h <;> rw [h] <;> simp
    · rw [hres] at hres2
      exact Except.noConfusion hres2
  · intro e hres
    rcases hcases with ⟨r2, hres2, hh⟩ | ⟨e2, hres2, hh⟩
    · rw [hres] at hres2
      exact Except.noConfusion hres2
    · rw [hh]
      refine ⟨rfl, ?_⟩
      rcases hacts with h | h <;> rw [h] <;> rfl

/-- Witness for C6: a successful HTTP renewal on a `renewal_reminder`
event installs token `tok1` and sends `renew_token` with it. -/
theorem c6_http_renewal_witness : httpRenewalSpec (cfg0 .http) envHttpOk st0 (some jReminder) :=
  c6_http_renewal (cfg0 .http) envHttpOk st0 (some jReminder)
    (by decide) (Or.inl (by decide)) rfl

/-- C7 (amended): the in-band challenge is the plain POST of the old
token; non-402 status or missing/empty `accepts` is a renewal error;
when the challenge succeeds and the first requirement of `accepts` is a
truthy value the client sends `renew_inband` with exactly that
requirement and the signed payload; a falsy first requirement (such as
`null`) aborts the renewal without sending anything. -/
theorem c7_inband_renewal :
    ∀ cfg env st d, classify d = .lifecycle →
      (opOf d = "renewal_reminder" ∨ opOf d = "payment_required") →
      cfg.renewMethod = .inband →
      inbandRenewalSpec cfg env st d := by
  intro cfg env st d hlc hop hm
  unfold inbandRenewalSpec
  have hacts := inbandChallenge_acts cfg.renewUrl st.currentToken env.inbandFetched
  refine ⟨?_, ?_, ?_, ?_, ?_, ?_⟩
  · rcases hsel : inbandSelection cfg env st with _ | ⟨sel, payload⟩
    · rcases handleMessage_inband_fail cfg env st d hlc hop hm hsel with
        ⟨attempt, hh, -, -, hmem, -, -⟩
      rw [hh]
      simp only [List.mem_append]
      exact Or.inl (Or.inr hmem)
    · have hsel2 := hsel
      unfold inbandSelection at hsel2
      rcases hc : (inbandRenewChallenge cfg.renewUrl st.currentToken env.inbandFetched).2 with e | pr
      · rw [hc] at hsel2
        simp only at hsel2
        exact Option.noConfusion hsel2
      · rw [hc] at hsel2
        simp only at hsel2
        rcases hp : env.paymentPayload with e | payload2
        · rw [hp] at hsel2
          simp only at hsel2
          exact Option.noConfusion hsel2
        · rw [hp] at hsel2
          simp only at hsel2
          rcases hh : (acceptsOf pr).head? with _ | sel2
          · rw [hh] at hsel2
            simp only at hsel2
            exact Option.noConfusion hsel2
          · rw [hh] at hsel2
            simp only at hsel2
            by_cases ht : truthy sel2 = true
            · have heq := handleMessage_inband_ok cfg env st d hlc hop hm pr payload2 sel2 hc hp hh ht
              rw [heq]
              rcases hacts with h | h <;> rw [h] <;> simp
            · rw [if_neg ht] at hsel2
              exact absurd hsel2 (by simp)
  · intro r hf hs
    simp [inbandRenewChallenge, hf, hs]
  · intro r hf hs hp
    have hs' : ¬ r.status ≠ 402 := by simp [hs]
    simp [inbandRenewChallenge, hf, hs', hp]
  · intro pr
    cases pr with
    | obj fs =>
      simp only [isPaymentRequired]
      cases h : getField fs "accepts" with
      | none => simp [h]
      | some w =>
        cases w <;> simp_all [List.length_pos]
    | null => simp [isPaymentRequired]
    | bool b => simp [isPaymentRequired]
    | num n => simp [isPaymentRequired]
    | str s => simp [isPaymentRequired]
    | arr items => simp [isPaymentRequired]
  · intro pr payload sel hc hp hh ht
    have heq := handleMessage_inband_ok cfg env st d hlc hop hm pr payload sel hc hp hh ht
    rw [heq]
    refine ⟨?_, rfl⟩
    simp
  · intro pr payload sel hc hp hh ht
    have hsel : inbandSelection cfg env st = none := by
      unfold inbandSelection
      rw [hc]
      simp only
      rw [hp]
      simp only
      rw [hh]
      simp [ht]
    rcases handleMessage_inband_fail cfg env st d hlc hop hm hsel with
      ⟨attempt, hh2, hsends, -, -, -, -⟩
    rw [hh2]
    refine ⟨?_, rfl⟩
    unfold sendsOf at hsends ⊢
    simp [List.filterMap_append, hsends]

/-- Counterexample for C7 as frozen: with a 402 challenge whose
`accepts` list is the non-empty `[null]`, the challenge succeeds and the
first requirement exists, yet the client sends nothing at all — it does
not send `renew_inband` carrying that first requirement. -/
theorem c7_counterexample :
    (inbandRenewChallenge (cfg0 .inband).renewUrl st0.currentToken
        envInbandNull.inbandFetched).2 = .ok prNullAccepts ∧
    (acceptsOf prNullAccepts).head? = some Json.null ∧
    sendsOf (handleMessage (cfg0 .inband) envInbandNull st0 (some jReminder)).2 = [] :=
  ⟨rfl, rfl, rfl⟩

/-- Witness for C7 (amended): a 402 challenge offering one truthy
requirement leads to a `renew_inband` send with exactly that
requirement. -/
theorem c7_inband_renewal_witness :
    inbandRenewalSpec (cfg0 .inband) envInbandOk st0 (some jReminder) :=
  c7_inband_renewal (cfg0 .inband) envInbandOk st0 (some jReminder)
    (by decide) (Or.inl (by decide)) rfl

/-- C8: on open the client sends exactly one `setOptions` with the full
option set first, `setAccounts` iff the account watchlist is non-empty,
then `setPrograms` iff the program watchlist is non-empty, and one
final `getState`; when both watchlists are empty only a non-fatal
warning is added and the sequence still completes. -/
theorem c8_open_sequence : ∀ cfg, openSequenceSpec cfg := by
  intro cfg
  unfold openSequenceSpec
  by_cases ha : cfg.watchAccounts = [] <;> by_cases hp : cfg.watchPrograms = [] <;>
    simp [onOpen, sendsOf, ha, hp, List.getLast?]

/-- Witness for C8 at a concrete configuration with empty watchlists. -/
theorem c8_open_sequence_witness : openSequenceSpec (cfg0 .http) :=
  c8_open_sequence (cfg0 .http)

/-- C9: in summary mode a classified transaction event is handled by
the enhanced summarizer exactly when it contains a `nativeTransfers`
key: a raw-shaped event is never summarized as enhanced and an
enhanced-shaped event is never summarized as raw. -/
theorem c9_transaction_dispatch :
    ∀ cfg env st d, isWsTransactionEvent d = true → cfg.txLogMode = .summary →
      transactionDispatchSpec cfg env st d := by
  intro cfg env st d htx hmode
  have hstatus : isWsStatusEvent d = false := by
    rcases (isWsTransactionEvent_iff d).mp htx with ⟨fs, hd, hty, _⟩
    subst hd
    by_contra hs
    simp only [Bool.not_eq_false] at hs
    rcases (isWsStatusEvent_iff _).mp hs with ⟨fs2, hd2, hty2, _⟩
    injection hd2 with h2
    injection h2 with h3
    subst h3
    rw [hty] at hty2
    exact absurd hty2 (by simp)
  have hh : handleMessage cfg env st d =
      (st, [Action.logTxSummary (if isEnhancedTransactionEvent d then .enhanced else .raw)]) := by
    unfold handleMessage
    simp [hstatus, htx, hmode]
  unfold transactionDispatchSpec
  refine ⟨by rw [hh], by rw [hh], ?_, ?_, ?_⟩
  · rw [hh]
    by_cases he : isEnhancedTransactionEvent d = true <;> simp [he]
  · rw [hh]
    by_cases he : isEnhancedTransactionEvent d = true <;> simp [he]
  · cases d with
    | none => simp [isEnhancedTransactionEvent]
    | some j => cases j <;> simp [isEnhancedTransactionEvent, Option.isSome_iff_exists]

/-- Witness for C9: an enhanced-shaped and (via the spec applied to a
raw-shaped input in its proof) the dispatch choice at concrete
events. -/
theorem c9_transaction_dispatch_witness :
    transactionDispatchSpec (cfg0 .http) envHttp500 st0 (some jTxEnhanced) :=
  c9_transaction_dispatch (cfg0 .http) envHttp500 st0 (some jTxEnhanced) (by decide) rfl

/-- Outside a renewal-triggering lifecycle event the handler leaves the
state unchanged and performs no fetch and no renewal send. -/
theorem handleMessage_shape (cfg : Config) (env : Env) (st : ClientState) (d : Option Json) :
    (∃ acts, handleMessage cfg env st d = (st, acts) ∧
       (∀ req, Action.fetchPlain req ∉ acts) ∧
       (∀ req, Action.fetchPayment req ∉ acts) ∧
       acts.countP isRenewSend = 0) ∨
    (classify d = .lifecycle ∧
      (opOf d = "renewal_reminder" ∨ opOf d = "payment_required")) := by
  have hc := classify_cases d
  cases ht : classify d with
  | status =>
    have g1 := hc.1.mp ht
    left
    exact ⟨[Action.logInfo "status"],
      by unfold handleMessage; simp [g1],
      by intro req; simp, by intro req; simp, rfl⟩
  | transaction =>
    obtain ⟨g1, g2⟩ := hc.2.1.mp ht
    by_cases hfull : cfg.txLogMode = .full
    · left
      exact ⟨[Action.logInfo "transaction"],
        by unfold handleMessage; simp [g1, g2, hfull],
        by intro req; simp, by intro req; simp, rfl⟩
    · left
      exact ⟨[Action.logTxSummary (if isEnhancedTransactionEvent d then .enhanced else .raw)],
        by unfold handleMessage; simp [g1, g2, hfull],
        by intro req; simp, by intro req; simp, rfl⟩
  | account =>
    obtain ⟨g1, g2, g3⟩ := hc.2.2.1.mp ht
    left
    exact ⟨[Action.logInfo "account"],
      by unfold handleMessage; simp [g1, g2, g3],
      by intro req; simp, by intro req; simp, rfl⟩
  | slot =>
    obtain ⟨g1, g2, g3, g4⟩ := hc.2.2.2.1.mp ht
    left
    exact ⟨[Action.logInfo "slot"],
      by unfold handleMessage; simp [g1, g2, g3, g4],
      by intro req; simp, by intro req; simp, rfl⟩
  | ticker =>
    obtain ⟨g1, g2, g3, g4, g5⟩ := hc.2.2.2.2.1.mp ht
    left
    exact ⟨[Action.logInfo "ticker"],
      by unfold handleMessage; simp [g1, g2, g3, g4, g5],
      by intro req; simp, by intro req; simp, rfl⟩
  | leaderboard =>
    obtain ⟨g1, g2, g3, g4, g5, g6⟩ := hc.2.2.2.2.2.1.mp ht
    left
    exact ⟨[Action.logInfo "leaderboard"],
      by unfold handleMessage; simp [g1, g2, g3, g4, g5, g6],
      by intro req; simp, by intro req; simp, rfl⟩
  | lifecycle =>
    obtain ⟨g1, g2, g3, g4, g5, g6, g7⟩ := hc.2.2.2.2.2.2.1.mp ht
    by_cases hop : opOf d = "renewal_reminder" ∨ opOf d = "payment_required"
    · right
      exact ⟨rfl, hop⟩
    · left
      exact ⟨[Action.logInfo "ws event"],
        by unfold handleMessage; simp [g1, g2, g3, g4, g5, g6, g7, hop],
        by intro req; simp, by intro req; simp, rfl⟩
  | unrecognized =>
    obtain ⟨g1, g2, g3, g4, g5, g6, g7⟩ := hc.2.2.2.2.2.2.2.mp ht
    left
    exact ⟨[Action.logWarn "ws event ignored: invalid shape"],
      by unfold handleMessage; simp [g1, g2, g3, g4, g5, g6, g7],
      by intro req; simp, by intro req; simp, rfl⟩

/-- Inversion of a successful in-band selection. -/
theorem inbandSelection_inv (cfg : Config) (env : Env) (st : ClientState) (sel payload : Json)
    (hsel : inbandSelection cfg env st = some (sel, payload)) :
    ∃ pr, (inbandRenewChallenge cfg.renewUrl st.currentToken env.inbandFetched).2 = .ok pr ∧
      env.paymentPayload = .ok payload ∧
      (acceptsOf pr).head? = some sel ∧ truthy sel = true := by
  unfold inbandSelection at hsel
  rcases hc : (inbandRenewChallenge cfg.renewUrl st.currentToken env.inbandFetched).2 with e | pr
  · rw [hc] at hsel
    simp only at hsel
    exact Option.noConfusion hsel
  · rw [hc] at hsel
    simp only at hsel
    rcases hp : env.paymentPayload with e | payload2
    · rw [hp] at hsel
      simp only at hsel
      exact Option.noConfusion hsel
    · rw [hp] at hsel
      simp only at hsel
      rcases hh : (acceptsOf pr).head? with _ | sel2
      · rw [hh] at hsel
        simp only at hsel
        exact Option.noConfusion hsel
      · rw [hh] at hsel
        simp only at hsel
        by_cases htr : truthy sel2 = true
        · rw [if_pos htr] at hsel
          simp only [Option.some.injEq, Prod.mk.injEq] at hsel
          obtain ⟨h1, h2⟩ := hsel
          subst h1
          subst h2
          exact ⟨pr, rfl, rfl, hh, htr⟩
        · rw [if_neg htr] at hsel
          exact Option.noConfusion hsel

/-- The handler either leaves the state unchanged or performs a
successful http renewal and installs exactly the returned token. -/
theorem handleMessage_fst_cases (cfg : Config) (env : Env) (st : ClientState) (d : Option Json) :
    (handleMessage cfg env st d).1 = st ∨
    (cfg.renewMethod = .http ∧ ∃ renewed,
      (httpRenew cfg.renewUrl st.currentToken env.httpFetched).2 = .ok renewed ∧
      (handleMessage cfg env st d).1 = { currentToken := renewed.token }) := by
  rcases handleMessage_shape cfg env st d with ⟨acts, hh, -, -, -⟩ | ⟨hlc, hop⟩
  · left
    rw [hh]
  · cases hm : cfg.renewMethod with
    | http =>
      rcases handleMessage_renew_http cfg env st d hlc hop hm with
        ⟨renewed, hres, hh⟩ | ⟨e, hres, hh⟩
      · right
        exact ⟨rfl, renewed, hres, by rw [hh]⟩
      · left
        rw [hh]
    | inband =>
      rcases hsel : inbandSelection cfg env st with _ | ⟨sel, payload⟩
      · rcases handleMessage_inband_fail cfg env st d hlc hop hm hsel with
          ⟨attempt, hh, -, -, -, -, -⟩
        left
        rw [hh]
      · obtain ⟨pr, hch, hp, hhd, htr⟩ := inbandSelection_inv cfg env st sel payload hsel
        have heq := handleMessage_inband_ok cfg env st d hlc hop hm pr payload sel hch hp hhd htr
        left
        rw [heq]

/-- With the `inband` method the handler never changes the state, every
challenge POST carries the current token, and the payment-wrapped fetch
is never used. -/
theorem handleMessage_inband_invariant (cfg : Config) (env : Env) (st : ClientState)
    (d : Option Json) (hm : cfg.renewMethod = .inband) :
    (handleMessage cfg env st d).1 = st ∧
    (∀ req, Action.fetchPlain req ∈ (handleMessage cfg env st d).2 →
      req = { url := cfg.renewUrl, method := "POST", bodyToken := st.currentToken }) ∧
    (∀ req, Action.fetchPayment req ∉ (handleMessage cfg env st d).2) := by
  rcases handleMessage_shape cfg env st d with ⟨acts, hh, hnp, hnf, -⟩ | ⟨hlc, hop⟩
  · rw [hh]
    exact ⟨rfl, fun req hreq => absurd hreq (hnp req), fun req => hnf req⟩
  · rcases hsel : inbandSelection cfg env st with _ | ⟨sel, payload⟩
    · rcases handleMessage_inband_fail cfg env st d hlc hop hm hsel with
        ⟨attempt, hh, -, -, -, hpl, hnf⟩
      rw [hh]
      refine ⟨rfl, ?_, ?_⟩
      · intro req hreq
        simp only [List.mem_append] at hreq
        rcases hreq with (h | h) | h
        · simp at h
        · exact hpl req h
        · simp at h
      · intro req hreq
        simp only [List.mem_append] at hreq
        rcases hreq with (h | h) | h
        · simp at h
        · exact hnf req h
        · simp at h
    · obtain ⟨pr, hch, hp, hhd, htr⟩ := inbandSelection_inv cfg env st sel payload hsel
      have heq := handleMessage_inband_ok cfg env st d hlc hop hm pr payload sel hch hp hhd htr
      have hacts := inbandChallenge_acts cfg.renewUrl st.currentToken env.inbandFetched
      rw [heq]
      refine ⟨rfl, ?_, ?_⟩
      · intro req hreq
        rcases hacts with h | h <;> rw [h] at hreq <;> simpa using hreq
      · intro req
        rcases hacts with h | h <;> rw [h] <;> simp

/-- C10: with the in-band renewal method the current token is never
mutated after session acquisition — the state survives every message
sequence unchanged, every in-band challenge POST carries the original
token, the payment-wrapped fetch is never used — and in general the
state changes only through a successful http renewal, which installs
exactly the returned token. -/
theorem c10_inband_token_immutable :
    (∀ cfg st msgs, cfg.renewMethod = .inband → inbandTokenImmutableSpec cfg st msgs) ∧
    (∀ cfg env st d, (handleMessage cfg env st d).1 ≠ st →
      cfg.renewMethod = .http ∧ ∃ renewed,
        (httpRenew cfg.renewUrl st.currentToken env.httpFetched).2 = .ok renewed ∧
        (handleMessage cfg env st d).1 = { currentToken := renewed.token }) := by
  constructor
  · intro cfg st msgs hm
    unfold inbandTokenImmutableSpec
    induction msgs with
    | nil => exact ⟨rfl, by intro req h; simp [runTrace] at h, by intro req; simp [runTrace]⟩
    | cons p rest ih =>
      rcases p with ⟨env, d⟩
      obtain ⟨hfst, hplain, hpay⟩ := handleMessage_inband_invariant cfg env st d hm
      have hstep : runTrace cfg st ((env, d) :: rest) =
          ((runTrace cfg st rest).1,
           (handleMessage cfg env st d).2 ++ (runTrace cfg st rest).2) := by
        show ((runTrace cfg (handleMessage cfg env st d).1 rest).1,
          (handleMessage cfg env st d).2 ++ (runTrace cfg (handleMessage cfg env st d).1 rest).2) = _
        rw [hfst]
      rw [hstep]
      refine ⟨ih.1, ?_, ?_⟩
      · intro req hreq
        rcases List.mem_append.mp hreq with h | h
        · rw [hplain req h]
        · exact ih.2.1 req h
      · intro req hreq
        rcases List.mem_append.mp hreq with h | h
        · exact hpay req h
        · exact ih.2.2 req h
  · intro cfg env st d hne
    rcases handleMessage_fst_cases cfg env st d with h | h
    · exact absurd h hne
    · exact h

/-- Witness for C10: an in-band session processing a renewal reminder
keeps token `tok0`; and a successful http renewal that does change the
state installs exactly the returned token. -/
theorem c10_inband_token_immutable_witness :
    inbandTokenImmutableSpec (cfg0 .inband) st0 [(envInbandOk, some jReminder)] ∧
    ((cfg0 .http).renewMethod = .http ∧ ∃ renewed,
      (httpRenew (cfg0 .http).renewUrl st0.currentToken envHttpOk.httpFetched).2 = .ok renewed ∧
      (handleMessage (cfg0 .http) envHttpOk st0 (some jReminder)).1 =
        { currentToken := renewed.token }) :=
  ⟨c10_inband_token_immutable.1 (cfg0 .inband) st0 [(envInbandOk, some jReminder)] rfl,
   c10_inband_token_immutable.2 (cfg0 .http) envHttpOk st0 (some jReminder) (by decide)⟩

theorem countP_isRenewSend_of_sendsOf_nil (l : List Action) (h : sendsOf l = []) :
    l.countP isRenewSend = 0 := by
  induction l with
  | nil => rfl
  | cons a rest ih =>
    rw [List.countP_cons]
    cases a <;> simp_all [sendsOf, List.filterMap_cons, isRenewSend]

/-- Each handler invocation sends at most one renewal control message. -/
theorem handleMessage_renewSend_count (cfg : Config) (env : Env) (st : ClientState)
    (d : Option Json) : ((handleMessage cfg env st d).2.countP isRenewSend) ≤ 1 := by
  rcases handleMessage_shape cfg env st d with ⟨acts, hh, -, -, hcnt⟩ | ⟨hlc, hop⟩
  · rw [hh]
    simp [hcnt]
  · cases hm : cfg.renewMethod with
    | http =>
      have hacts := httpRenew_acts cfg.renewUrl st.currentToken env.httpFetched
      rcases handleMessage_renew_http cfg env st d hlc hop hm with
        ⟨renewed, hres, hh⟩ | ⟨e, hres, hh⟩
      · rw [hh]
        rcases hacts with h | h <;> rw [h] <;>
          simp [List.countP_append, List.countP_cons, isRenewSend]
      · rw [hh]
        rcases hacts with h | h <;> rw [h] <;>
          simp [List.countP_append, List.countP_cons, isRenewSend]
    | inband =>
      rcases hsel : inbandSelection cfg env st with _ | ⟨sel, payload⟩
      · rcases handleMessage_inband_fail cfg env st d hlc hop hm hsel with
          ⟨attempt, hh, hsends, -, -, -, -⟩
        rw [hh]
        have hz := countP_isRenewSend_of_sendsOf_nil attempt hsends
        simp [List.countP_append, List.countP_cons, isRenewSend, hz]
      · obtain ⟨pr, hch, hp, hhd, htr⟩ := inbandSelection_inv cfg env st sel payload hsel
        have heq := handleMessage_inband_ok cfg env st d hlc hop hm pr payload sel hch hp hhd htr
        have hacts := inbandChallenge_acts cfg.renewUrl st.currentToken env.inbandFetched
        rw [heq]
        rcases hacts with h | h <;> rw [h] <;>
          simp [List.countP_append, List.countP_cons, isRenewSend]

/-- C5 (amended): the handler issues at most one renewal control
message per inbound message and a delivery starts exactly one more
in-flight renewal, but the callback has no single-flight guard, so a
state with two renewals in flight for the same token generation is
reachable in the event-loop model. -/
theorem c5_single_flight_amended : singleFlightAmendedSpec := by
  unfold singleFlightAmendedSpec
  refine ⟨fun cfg env st d => handleMessage_renewSend_count cfg env st d,
    fun s => by simp [deliverEffect],
    fun s => AsyncStep.deliver s,
    ⟨deliverEffect (deliverEffect asyncInit), ?_, ?_⟩⟩
  · exact Relation.ReflTransGen.tail
      (Relation.ReflTransGen.single (AsyncStep.deliver asyncInit))
      (AsyncStep.deliver _)
  · rfl

/-- Counterexample for C5 as frozen: the single-flight property fails —
two renewal-reminder deliveries while the first renewal fetch is still
pending reach a state with two renewals in flight. -/
theorem c5_counterexample :
    ¬ (∀ s : AsyncState, AsyncReachable asyncInit s → s.pendingRenewals.length ≤ 1) := by
  intro h
  have h2 := h (deliverEffect (deliverEffect asyncInit))
    (Relation.ReflTransGen.tail
      (Relation.ReflTransGen.single (AsyncStep.deliver asyncInit))
      (AsyncStep.deliver _))
  simp [deliverEffect, asyncInit] at h2

end AtomicStream
